import Mathlib

/-! awesome-go-sql: the dynamic filter builders and the array adapter

A shallow embedding of the adapters under `cmd/` that assemble a filtered
statement (the part of `DAO.SelectAllAccountsByFilter` that builds the
statement text and the bound arguments, up to the call of the execution
engine), of the fetch-all queries `DAO.SelectAllAccounts`, of the row lookups
`DAO.SelectAccountByID`, of the helpers of the jet adapters, and of
`models.Filters`, `models.Array` and `models.SliceToStr` from
`models/models.go`.

Go values are modelled as follows.
* A slice `[]T` is a `Slice T`: the nil slice, or a backing sequence that may
  be empty. `len` of both the nil and the empty slice is `0`.
* A pointer `*bool` is an `Option Bool`; `none` is the nil pointer and
  dereferencing it panics.
* A value of type `any` is a `GoAny`, tagged with its dynamic type.
* An `error` is an `Option GoError`; `none` is the nil error.
* Code that may panic returns `Except GoPanic`.
* The database driver and its type registry are dependencies: what they return
  is an input of the model.
-/

namespace AwesomeGoSql

/-! ## Go runtime values -/

/-- Run-time panics of the Go fragment that is modelled. -/
inductive GoPanic where
  | nilPointerDereference : GoPanic
  | indexOutOfRange : GoPanic
deriving DecidableEq, Repr

/-- Go slice of `α`: `nil`, or a slice over the given elements. -/
inductive Slice (α : Type) where
  | nil : Slice α
  | of (elems : List α) : Slice α
deriving DecidableEq, Repr

namespace Slice

variable {α : Type}

/-- Elements of a slice in order; the nil slice has none. -/
def toList : Slice α → List α
  | Slice.nil => []
  | Slice.of elems => elems

/-- Go builtin `len`. -/
def len (s : Slice α) : Int := s.toList.length

/-- Go builtin `append(s, x)` with one element: the result is never nil. -/
def append (s : Slice α) (x : α) : Slice α := Slice.of (s.toList ++ [x])

/-- Go comparison `s == nil`. -/
def isNil : Slice α → Bool
  | Slice.nil => true
  | Slice.of _ => false

end Slice

/-- Go dereference `*p` of a pointer: panics on the nil pointer. -/
def deref {α : Type} : Option α → Except GoPanic α
  | none => Except.error GoPanic.nilPointerDereference
  | some v => Except.ok v

/-- Dynamic values stored in a Go `[]any` argument list by the adapters. -/
inductive GoAny where
  | strings (s : Slice String) : GoAny
  | bool (b : Bool) : GoAny
  | boolPtr (p : Option Bool) : GoAny
deriving DecidableEq, Repr

/-- Go `fmt` verb `%d` applied to an `int`. -/
def fmtD (n : Int) : String := toString n

/-! ## models.Filters -/

/-- The struct `models.Filters` (models/models.go). -/
structure Filters where
  Names : Slice String
  Active : Option Bool
  FavColors : Slice String
deriving DecidableEq, Repr

/-! ## cmd/pgx/main.go -/

namespace Pgx

/-- The initial value of `query` in `SelectAllAccountsByFilter`: a raw string
literal, line breaks and tabs included. -/
def baseQuery : String :=
  "\n\t\tSELECT\n\t\t\tid,\n\t\t\tname,\n\t\t\temail,\n\t\t\tactive,\n\t\t\tfav_color,\n\t\t\tfav_numbers,\n\t\t\tproperties,\n\t\t\tcreated_at\n\t\tFROM accounts"

/-- Lines 117-134 of `SelectAllAccountsByFilter`: the conditions `wheres` and
the arguments `args` built from the filters. -/
def buildWheres (filters : Filters) : Except GoPanic (Slice String × Slice GoAny) := do
  let mut wheres : Slice String := Slice.nil
  let mut args : Slice GoAny := Slice.nil
  let mut argCount : Int := 1
  if filters.Names.len > 0 then
    wheres := wheres.append ("name = ANY($" ++ fmtD argCount ++ ")")
    args := args.append (GoAny.strings filters.Names)
    argCount := argCount + 1
  if filters.Active != none then
    wheres := wheres.append ("active = $" ++ fmtD argCount)
    args := args.append (GoAny.bool (← deref filters.Active))
    argCount := argCount + 1
  if filters.FavColors.len > 0 then
    wheres := wheres.append ("fav_color = ANY($" ++ fmtD argCount ++ ")")
    args := args.append (GoAny.strings filters.FavColors)
    argCount := argCount + 1
  return (wheres, args)

/-- Lines 104-138 of `SelectAllAccountsByFilter`: the statement text and the
arguments handed to `d.db.Query`. -/
def SelectAllAccountsByFilter (filters : Filters) : Except GoPanic (String × Slice GoAny) := do
  let mut query := baseQuery
  let (wheres, args) ← buildWheres filters
  if wheres.len > 0 then
    query := query ++ (" WHERE " ++ String.intercalate " AND " wheres.toList)
  return (query, args)

end Pgx

/-- The filters passed by `main` in `cmd/pgx/main.go`. -/
def mainFilters : Filters :=
  { Names := Slice.of ["Jane", "John"]
    Active := some true
    FavColors := Slice.of ["red", "blue", "green"] }

/-- Go variadic `append(s, xs...)`: the elements are appended one by one, and
appending nothing leaves the slice as it is. -/
def Slice.appendAll {α : Type} (s : Slice α) (xs : List α) : Slice α :=
  xs.foldl Slice.append s

/-- The three fields of `Filters`, in declaration order. -/
inductive Field where
  | names : Field
  | active : Field
  | favColors : Field
deriving DecidableEq, Repr

namespace Field

/-- Every field, names before active before favColors. -/
def all : List Field := [Field.names, Field.active, Field.favColors]

/-- A slice field is populated when it is non-empty, the pointer field when it
is non-nil. -/
def populated (f : Filters) : Field → Bool
  | Field.names => !f.Names.toList.isEmpty
  | Field.active => f.Active.isSome
  | Field.favColors => !f.FavColors.toList.isEmpty

/-- Condition text of a field for placeholder number `k`. -/
def condition : Field → Int → String
  | Field.names, k => "name = ANY($" ++ fmtD k ++ ")"
  | Field.active, k => "active = $" ++ fmtD k
  | Field.favColors, k => "fav_color = ANY($" ++ fmtD k ++ ")"

/-- Value bound for a field: the whole slice, or the boolean pointed to (there
is none when the pointer is nil). -/
def argument (f : Filters) : Field → Option GoAny
  | Field.names => some (GoAny.strings f.Names)
  | Field.active => f.Active.map GoAny.bool
  | Field.favColors => some (GoAny.strings f.FavColors)

end Field

/-- The populated fields of a filter value, in the fixed order. -/
def populatedFields (f : Filters) : List Field :=
  Field.all.filter (Field.populated f)

/-- Conditions as the specification describes them: one per populated field in
the fixed order, numbered from 1. -/
def expectedConditions (f : Filters) : List String :=
  ((populatedFields f).enumFrom 1).map (fun p => p.2.condition (p.1 : Int))

/-- Arguments as the specification describes them: one per populated field in
the fixed order. -/
def expectedArguments (f : Filters) : List GoAny :=
  (populatedFields f).filterMap (Field.argument f)

/-! ## Vocabulary of the properties -/

/-- Token completed by the scanner state, if any. The state is `none` outside
a token, `some none` right after a dollar sign, and `some (some n)` after a
dollar sign followed by digits that read `n`; only the last is a token. -/
def flushPlaceholder : Option (Option Nat) → List Nat
  | some (some n) => [n]
  | _ => []

/-- Numbers of the placeholder tokens (a dollar sign followed by decimal
digits) in a sequence of characters, in order of occurrence. -/
def placeholdersFrom : Option (Option Nat) → List Char → List Nat
  | st, [] => flushPlaceholder st
  | st, c :: cs =>
    if c = '$' then flushPlaceholder st ++ placeholdersFrom (some none) cs
    else if c.isDigit then
      match st with
      | none => placeholdersFrom none cs
      | some acc => placeholdersFrom (some (some (acc.getD 0 * 10 + (c.toNat - '0'.toNat)))) cs
    else flushPlaceholder st ++ placeholdersFrom none cs

/-- Numbers of the placeholder tokens of a text, in order of occurrence. -/
def placeholders (text : String) : List Nat := placeholdersFrom none text.data

/-- Whether `word` occurs somewhere in `text`. -/
def mentions (word text : String) : Bool :=
  text.data.tails.any (fun t => word.data.isPrefixOf t)

/-- Column of the accounts table that a field filters on. -/
def Field.column : Field → String
  | Field.names => "name"
  | Field.active => "active"
  | Field.favColors => "fav_color"

/-- Statement text as the specification words it: the base text, followed,
when there is a condition, by the text `WHERE ` and the conditions joined with
` AND `. -/
def statementAsWorded (conditions : List String) : String :=
  if conditions.length > 0 then
    Pgx.baseQuery ++ ("WHERE " ++ String.intercalate " AND " conditions)
  else Pgx.baseQuery

/-! ## cmd/scan/main.go -/

namespace Scan

/-- The initial value of `query` in `SelectAllAccountsByFilter` (cmd/scan/main.go, from
line 80). -/
def baseQuery : String :=
  "\n\t\tSELECT\n\t\t\tid,\n\t\t\tname,\n\t\t\temail,\n\t\t\tactive,\n\t\t\tfav_color,\n\t\t\tfav_numbers,\n\t\t\tproperties,\n\t\t\tcreated_at\n\t\tFROM accounts"

/-- Lines 93-110 of `SelectAllAccountsByFilter` (cmd/scan/main.go): the conditions and the
arguments built from the filters. -/
def buildWheres (filters : Filters) : Except GoPanic (Slice String × Slice GoAny) := do
  let mut wheres : Slice String := Slice.nil
  let mut args : Slice GoAny := Slice.nil
  let mut argCount : Int := 1
  if filters.Names.len > 0 then
    wheres := wheres.append ("name = ANY($" ++ fmtD argCount ++ ")")
    args := args.append (GoAny.strings filters.Names)
    argCount := argCount + 1
  if filters.Active != none then
    wheres := wheres.append ("active = $" ++ fmtD argCount)
    args := args.append (GoAny.bool (← deref filters.Active))
    argCount := argCount + 1
  if filters.FavColors.len > 0 then
    wheres := wheres.append ("fav_color = ANY($" ++ fmtD argCount ++ ")")
    args := args.append (GoAny.strings filters.FavColors)
    argCount := argCount + 1
  return (wheres, args)

/-- Lines 80-114 of `SelectAllAccountsByFilter` (cmd/scan/main.go): the statement text and
the arguments handed to the query call. -/
def SelectAllAccountsByFilter (filters : Filters) : Except GoPanic (String × Slice GoAny) := do
  let mut query := baseQuery
  let (wheres, args) ← buildWheres filters
  if wheres.len > 0 then
    query := query ++ (" WHERE " ++ String.intercalate " AND " wheres.toList)
  return (query, args)

end Scan

/-! ## cmd/sqlx/main.go -/

namespace Sqlx

/-- The initial value of `query` in `SelectAllAccountsByFilter` (cmd/sqlx/main.go, from
line 72). -/
def baseQuery : String :=
  "\n\t\tSELECT\n\t\t\tid,\n\t\t\tname,\n\t\t\temail,\n\t\t\tactive,\n\t\t\tfav_color,\n\t\t\tfav_numbers,\n\t\t\tproperties,\n\t\t\tcreated_at\n\t\tFROM accounts"

/-- Lines 85-102 of `SelectAllAccountsByFilter` (cmd/sqlx/main.go): the conditions and the
arguments built from the filters. -/
def buildWheres (filters : Filters) : Except GoPanic (Slice String × Slice GoAny) := do
  let mut wheres : Slice String := Slice.nil
  let mut args : Slice GoAny := Slice.nil
  let mut argCount : Int := 1
  if filters.Names.len > 0 then
    wheres := wheres.append ("name = ANY($" ++ fmtD argCount ++ ")")
    args := args.append (GoAny.strings filters.Names)
    argCount := argCount + 1
  if filters.Active != none then
    wheres := wheres.append ("active = $" ++ fmtD argCount)
    args := args.append (GoAny.bool (← deref filters.Active))
    argCount := argCount + 1
  if filters.FavColors.len > 0 then
    wheres := wheres.append ("fav_color = ANY($" ++ fmtD argCount ++ ")")
    args := args.append (GoAny.strings filters.FavColors)
    argCount := argCount + 1
  return (wheres, args)

/-- Lines 72-106 of `SelectAllAccountsByFilter` (cmd/sqlx/main.go): the statement text and
the arguments handed to the query call. -/
def SelectAllAccountsByFilter (filters : Filters) : Except GoPanic (String × Slice GoAny) := do
  let mut query := baseQuery
  let (wheres, args) ← buildWheres filters
  if wheres.len > 0 then
    query := query ++ (" WHERE " ++ String.intercalate " AND " wheres.toList)
  return (query, args)

end Sqlx

/-! ## cmd/ksql/main.go -/

namespace Ksql

/-- The initial value of `query` in `SelectAllAccountsByFilter` (cmd/ksql/main.go, from
line 69). -/
def baseQuery : String :=
  "\n\t\tSELECT\n\t\t\tid,\n\t\t\tname,\n\t\t\temail,\n\t\t\tactive,\n\t\t\tfav_color,\n\t\t\tfav_numbers,\n\t\t\tproperties,\n\t\t\tcreated_at\n\t\tFROM accounts"

/-- Lines 82-99 of `SelectAllAccountsByFilter` (cmd/ksql/main.go): the conditions and the
arguments built from the filters. -/
def buildWheres (filters : Filters) : Except GoPanic (Slice String × Slice GoAny) := do
  let mut wheres : Slice String := Slice.nil
  let mut args : Slice GoAny := Slice.nil
  let mut argCount : Int := 1
  if filters.Names.len > 0 then
    wheres := wheres.append ("name = ANY($" ++ fmtD argCount ++ ")")
    args := args.append (GoAny.strings filters.Names)
    argCount := argCount + 1
  if filters.Active != none then
    wheres := wheres.append ("active = $" ++ fmtD argCount)
    args := args.append (GoAny.bool (← deref filters.Active))
    argCount := argCount + 1
  if filters.FavColors.len > 0 then
    wheres := wheres.append ("fav_color = ANY($" ++ fmtD argCount ++ ")")
    args := args.append (GoAny.strings filters.FavColors)
    argCount := argCount + 1
  return (wheres, args)

/-- Lines 69-103 of `SelectAllAccountsByFilter` (cmd/ksql/main.go): the statement text and
the arguments handed to the query call. -/
def SelectAllAccountsByFilter (filters : Filters) : Except GoPanic (String × Slice GoAny) := do
  let mut query := baseQuery
  let (wheres, args) ← buildWheres filters
  if wheres.len > 0 then
    query := query ++ (" WHERE " ++ String.intercalate " AND " wheres.toList)
  return (query, args)

end Ksql

/-! ## cmd/goqu/main.go and cmd/goqu/pgx/main.go -/

/-- A `goqu.Ex` literal with one key: the column and the value bound to it. -/
structure GoquEx where
  column : String
  value : GoAny
deriving DecidableEq, Repr

namespace Goqu

/-- Lines 78-86 of `SelectAllAccountsByFilter` (cmd/goqu/main.go): the
expressions handed to `query.Where`, in the order of the calls. -/
def filterWheres (filters : Filters) : Except GoPanic (List GoquEx) := do
  let mut query : List GoquEx := []
  if filters.Names.len > 0 then
    query := query ++ [{ column := "name", value := GoAny.strings filters.Names }]
  if filters.Active != none then
    query := query ++ [{ column := "active", value := GoAny.bool (← deref filters.Active) }]
  if filters.FavColors.len > 0 then
    query := query ++ [{ column := "fav_color", value := GoAny.strings filters.FavColors }]
  return query

end Goqu

namespace GoquPgx

/-- Lines 133-141 of `SelectAllAccountsByFilter` (cmd/goqu/pgx/main.go): the
expressions handed to `query.Where`, in the order of the calls. -/
def filterWheres (filters : Filters) : Except GoPanic (List GoquEx) := do
  let mut query : List GoquEx := []
  if filters.Names.len > 0 then
    query := query ++ [{ column := "name", value := GoAny.strings filters.Names }]
  if filters.Active != none then
    query := query ++ [{ column := "active", value := GoAny.boolPtr filters.Active }]
  if filters.FavColors.len > 0 then
    query := query ++ [{ column := "fav_color", value := GoAny.strings filters.FavColors }]
  return query

end GoquPgx

/-! ## Errors and the row lookups (SelectAccountByID) -/

/-- Go error values: package-level sentinels such as `pgx.ErrNoRows`, plain
messages, and errors that wrap another one. -/
inductive GoError where
  | sentinel (name : String) : GoError
  | message (text : String) : GoError
  | wrapped (text : String) (inner : GoError) : GoError
deriving DecidableEq, Repr

/-- Go `errors.Is(err, target)` on a non-nil `err`: `err` or an error that it
wraps is the target. -/
def GoError.is : GoError → GoError → Bool
  | GoError.wrapped text inner, target =>
    (GoError.wrapped text inner == target) || GoError.is inner target
  | err, target => err == target

/-- Go `errors.Is(err, target)`; a nil `err` is no error at all. -/
def errorsIs (err : Option GoError) (target : GoError) : Bool :=
  match err with
  | none => false
  | some e => e.is target

namespace Pgx

/-- The sentinel `pgx.ErrNoRows`. -/
def ErrNoRows : GoError := GoError.sentinel "pgx.ErrNoRows"

/-- Lines 36-54 of `SelectAccountByID` (cmd/pgx/main.go). `account` and `err`
are what `d.db.QueryRow(ctx, query, id).Scan(...)` leaves in the local
variable and returns. -/
def SelectAccountByID {Account : Type} (account : Account) (err : Option GoError) :
    Account × Bool × Option GoError :=
  if errorsIs err ErrNoRows then (account, false, none)
  else if err != none then (account, false, err)
  else (account, true, none)

end Pgx

namespace Ksql

/-- The sentinel `ksql.ErrRecordNotFound`. -/
def ErrRecordNotFound : GoError := GoError.sentinel "ksql.ErrRecordNotFound"

/-- Lines 37-46 of `SelectAccountByID` (cmd/ksql/main.go). `account` and `err`
are what `d.db.QueryOne(ctx, &account, query, id)` leaves and returns. -/
def SelectAccountByID {Account : Type} (account : Account) (err : Option GoError) :
    Account × Bool × Option GoError :=
  if errorsIs err ErrRecordNotFound then (account, false, none)
  else if err != none then (account, false, err)
  else (account, true, none)

end Ksql

namespace Scan

/-- The sentinel `sql.ErrNoRows`. -/
def ErrNoRows : GoError := GoError.sentinel "sql.ErrNoRows"

/-- Lines 38-52 of `SelectAccountByID` (cmd/scan/main.go). `queryErr` is the
error of `d.db.QueryContext`; `account` and `err` are what
`scan.Row(&account, rows)` leaves and returns. The zero account is `default`. -/
def SelectAccountByID {Account : Type} [Inhabited Account] (queryErr : Option GoError)
    (account : Account) (err : Option GoError) : Account × Bool × Option GoError :=
  if queryErr != none then (default, false, queryErr)
  else if errorsIs err ErrNoRows then (account, false, none)
  else if err != none then (account, false, err)
  else (account, true, none)

end Scan

/-! ## models.Array (models/models.go) and the type registry it calls -/

/-- Go `s[i]`: panics when the index is out of range. -/
def Slice.index {α : Type} (s : Slice α) (i : Nat) : Except GoPanic α :=
  match s.toList.get? i with
  | some x => Except.ok x
  | none => Except.error GoPanic.indexOutOfRange

/-- What the verb `%T` of `fmt` prints for the Go type modelled by `T`. -/
class GoType (T : Type) where
  typeName : String

instance : GoType Int := { typeName := "int" }

/-- A value exchanged with the database driver: `driver.Value`, or the `src`
handed to a scanner. `null` is the Go nil. -/
inductive DriverValue where
  | null : DriverValue
  | text (s : String) : DriverValue
  | bytes (b : List UInt8) : DriverValue
deriving DecidableEq, Repr

/-- A registered type, `pgtype.Type`, as far as the code reads it. -/
structure PgType where
  Name : String
  OID : Nat
deriving DecidableEq, Repr

/-- The constant `pgtype.TextFormatCode`. -/
def TextFormatCode : Int := 0

/-- The part of the registry `pgTypeMap` (a `pgtype.Map` of the pgx driver)
that `Array` calls. The driver is a dependency of the repository; what it does
is a parameter of the model.
* `TypeForValueArray src` and `TypeForValueElement v` are `TypeForValue` on the
  array and on an element: the registered type, or `none` when the second
  result is false.
* `PlanEncode elementType oid format src` is
  `pgtype.ArrayCodec{ElementType: elementType}.PlanEncode(m, oid, format, src)`:
  `none` is a nil plan, and a plan applied to `src` is `Encode(src, nil)`, the
  text buffer or an error.
* `SQLScannerScan src` is `SQLScanner(&dst).Scan(src)` on a nil `dst`: what
  `dst` holds afterwards, and the error. -/
structure TypeMap (T : Type) where
  TypeForValueArray : Slice T → Option PgType
  TypeForValueElement : T → Option PgType
  PlanEncode : PgType → Nat → Int → Slice T → Option (Slice T → Except GoError String)
  SQLScannerScan : DriverValue → Slice T × Option GoError

/-- Calls into the registry, in the order in which `Array.Value` makes them. -/
inductive RegistryCall where
  | typeForValue : RegistryCall
  | planEncode : RegistryCall
  | encode : RegistryCall
deriving DecidableEq, Repr

/-- The two results of `Array.Value`, and the registry calls it made. -/
structure ValueResult where
  value : DriverValue
  err : Option GoError
  calls : List RegistryCall
deriving DecidableEq, Repr

/-- The method `Array.Value` (models/models.go, lines 86-103). -/
def Array.Value {T : Type} [GoType T] (pgTypeMap : TypeMap T) (a : Slice T) :
    Except GoPanic ValueResult := do
  if a.len == 0 then
    return { value := DriverValue.null, err := none, calls := [] }
  let src := a
  let arrayType := pgTypeMap.TypeForValueArray src
  let elementType := pgTypeMap.TypeForValueElement (← src.index 0)
  let calls := [RegistryCall.typeForValue, RegistryCall.typeForValue]
  match arrayType, elementType with
  | some arrayType, some elementType =>
    match pgTypeMap.PlanEncode elementType arrayType.OID TextFormatCode src with
    | none => throw GoPanic.nilPointerDereference
    | some plan =>
      let calls := calls ++ [RegistryCall.planEncode, RegistryCall.encode]
      match plan src with
      | Except.error err => return { value := DriverValue.null, err := some err, calls := calls }
      | Except.ok buf => return { value := DriverValue.text buf, err := none, calls := calls }
  | _, _ =>
    return { value := DriverValue.null,
             err := some (GoError.message
               ("can't encode pgtype.FlatArray[" ++ GoType.typeName T ++ "]")),
             calls := calls }

/-- The method `Array.Scan` (models/models.go, lines 77-84): the receiver
afterwards, and the error returned. `a` is the receiver before the call. -/
def Array.Scan {T : Type} (pgTypeMap : TypeMap T) (a : Slice T) (src : DriverValue) :
    Slice T × Option GoError :=
  match pgTypeMap.SQLScannerScan src with
  | (_, some err) => (a, some err)
  | (dst, none) => (dst, none)

/-- The method `Array.Get` (models/models.go, lines 105-107). -/
def Array.Get {T : Type} (a : Slice T) : Slice T := a

/-! ## Registries to run the model on -/

/-- The integer that a sign and a magnitude read. -/
def signedInt (negative : Bool) (magnitude : Nat) : Int :=
  if negative then -(magnitude : Int) else (magnitude : Int)

/-- Reads the items of a text array after its opening brace: `items` are the
integers read so far, `negative` and `digits` the sign and the digits of the
item being read. -/
def parseIntItems : List Char → List Int → Bool → Option Nat → Option (List Int)
  | [], _, _, _ => none
  | c :: cs, items, negative, digits =>
    if c = '}' then
      match cs, digits with
      | [], some n => some (items ++ [signedInt negative n])
      | [], none => if items.isEmpty && !negative then some [] else none
      | _, _ => none
    else if c = ',' then
      match digits with
      | some n => parseIntItems cs (items ++ [signedInt negative n]) false none
      | none => none
    else if c = '-' then
      if negative || digits.isSome then none else parseIntItems cs items true none
    else if c.isDigit then
      parseIntItems cs items negative (some (digits.getD 0 * 10 + (c.toNat - '0'.toNat)))
    else none

/-- Reads an integer array in the text form of Postgres, such as `{1,-2,3}`. -/
def parseIntArray (text : String) : Option (List Int) :=
  match text.data with
  | '{' :: cs => parseIntItems cs [] false none
  | _ => none

/-- Writes an integer array in the text form of Postgres. -/
def printIntArray (xs : List Int) : String :=
  "\x7b" ++ String.intercalate "," (xs.map toString) ++ "\x7d"

/-- Whether an integer is a value of the Go type `int` (64 bits). -/
def fitsInt64 (n : Int) : Bool :=
  decide (-9223372036854775808 ≤ n) && decide (n ≤ 9223372036854775807)

/-- The text that bytes spell, when all of them are ASCII; the text form of an
integer array holds no other byte. -/
def asciiText (bytes : List UInt8) : Option String :=
  if bytes.all (fun b => decide (b.toNat < 128)) then
    some (String.mk (bytes.map (fun b => Char.ofNat b.toNat)))
  else none

/-- Scans the text form of an integer array into a slice of `int`: text that
is no integer array, or that holds an integer outside 64 bits, is refused. -/
def scanIntArrayText (text : String) : Slice Int × Option GoError :=
  match parseIntArray text with
  | some xs =>
    if xs.all fitsInt64 then (Slice.of xs, none)
    else (Slice.nil, some (GoError.message "value out of range"))
  | none => (Slice.nil, some (GoError.message "cannot scan"))

/-- A registry in which `int` and its array type are registered, for running
the model on arrays in the plain text form (digits, signs, commas and the two
braces): arrays are encoded in that form, NULL is scanned into the nil slice,
and a source given as a string or as bytes is scanned as text. -/
def intTypeMap : TypeMap Int :=
  { TypeForValueArray := fun _ => some { Name := "_int8", OID := 1016 }
    TypeForValueElement := fun _ => some { Name := "int8", OID := 20 }
    PlanEncode := fun _ _ _ _ => some (fun src => Except.ok (printIntArray src.toList))
    SQLScannerScan := fun src =>
      match src with
      | DriverValue.null => (Slice.nil, none)
      | DriverValue.text s => scanIntArrayText s
      | DriverValue.bytes b =>
        match asciiText b with
        | some s => scanIntArrayText s
        | none => (Slice.nil, some (GoError.message "cannot scan")) }

/-- A registry in which nothing is registered, for running the model. -/
def emptyTypeMap (T : Type) : TypeMap T :=
  { TypeForValueArray := fun _ => none
    TypeForValueElement := fun _ => none
    PlanEncode := fun _ _ _ _ => none
    SQLScannerScan := fun _ => (Slice.nil, some (GoError.message "cannot find registered type")) }

/-- Modelled from the spec: the decoding side of the registry, which is code of
the pgx driver and not of the sources, on the database NULL. The spec asks that
decoding the representation of the empty sequence "yields an empty sequence",
without failure. -/
def TypeMap.DecodesNull {T : Type} (m : TypeMap T) : Prop :=
  (m.SQLScannerScan DriverValue.null).2 = none ∧
    (m.SQLScannerScan DriverValue.null).1.len = 0

/-- Modelled from the spec: `T` is a supported scalar type, as far as the
sequence `s` goes. The codec of the registry is code of the pgx driver and not
of the sources; the spec asks that the registry maps the array and its first
element to database types, that the encoding is planned and succeeds, and that
decoding the encoded text gives `s` back ("decode(encode(s)) == s"). -/
def TypeMap.Supports {T : Type} (m : TypeMap T) (s : Slice T) : Prop :=
  ∃ first arrayType elementType plan buf,
    s.index 0 = Except.ok first ∧
    m.TypeForValueArray s = some arrayType ∧
    m.TypeForValueElement first = some elementType ∧
    m.PlanEncode elementType arrayType.OID TextFormatCode s = some plan ∧
    plan s = Except.ok buf ∧
    m.SQLScannerScan (DriverValue.text buf) = (s, none)

/-! ## cmd/jet/main.go and cmd/jet/pgx/main.go -/

/-- Literal expressions of the jet builder that the adapters create: `Int`,
`String`, `NewEnumValue` and `Bool`. -/
inductive Expression where
  | int (n : Int) : Expression
  | string (s : String) : Expression
  | enumValue (s : String) : Expression
  | bool (b : Bool) : Expression
deriving DecidableEq, Repr

/-- Boolean expressions of the jet builder that the adapters create, all of
them non-nil: `column.IN(values...)`, `column.EQ(value)` and `lhs.AND(rhs)`.
Columns are named as in the generated table (`name`, `active`, `fav_color`). -/
inductive BoolExpression where
  | isIn (column : String) (values : List Expression) : BoolExpression
  | eq (column : String) (value : Expression) : BoolExpression
  | and (lhs rhs : BoolExpression) : BoolExpression
deriving DecidableEq, Repr

namespace Jet

/-- The function `Integers` (cmd/jet/main.go, lines 169-175): `Int(int64(v))` for each
element, appended to an empty, non-nil slice. -/
def Integers (s : Slice Int) : Slice Expression :=
  s.toList.foldl (fun expressions v => expressions.append (Expression.int v)) (Slice.of [])

/-- The function `Strings` (cmd/jet/main.go, lines 178-184). -/
def Strings (s : Slice String) : Slice Expression :=
  s.toList.foldl (fun expressions v => expressions.append (Expression.string v)) (Slice.of [])

/-- The function `Enums` (cmd/jet/main.go, lines 187-193). -/
def Enums (s : Slice String) : Slice Expression :=
  s.toList.foldl (fun expressions v => expressions.append (Expression.enumValue v)) (Slice.of [])

/-- The function `WhereAnd` (cmd/jet/main.go, lines 196-206): the loop over `wheres`, with
`none` for the nil `where`. -/
def WhereAnd (wheres : Slice BoolExpression) : Option BoolExpression :=
  wheres.toList.foldl
    (fun whereExpr w =>
      match whereExpr with
      | none => some w
      | some e => some (BoolExpression.and e w))
    none

/-- Lines 88-97 of `SelectAllAccountsByFilter` (cmd/jet/main.go): the slice of where
expressions. -/
def filterWheres (filters : Filters) : Except GoPanic (Slice BoolExpression) := do
  let mut wheres : Slice BoolExpression := Slice.nil
  if filters.Names.len > 0 then
    wheres := wheres.append (BoolExpression.isIn "name" (Strings filters.Names).toList)
  if filters.Active != none then
    wheres := wheres.append
      (BoolExpression.eq "active" (Expression.bool (← deref filters.Active)))
  if filters.FavColors.len > 0 then
    wheres := wheres.append (BoolExpression.isIn "fav_color" (Enums filters.FavColors).toList)
  return wheres

/-- Line 103 of `SelectAllAccountsByFilter` (cmd/jet/main.go): the condition handed to
`WHERE`. -/
def whereCondition (filters : Filters) : Except GoPanic (Option BoolExpression) := do
  return WhereAnd (← filterWheres filters)

end Jet

namespace JetPgx

/-- The function `Integers` (cmd/jet/pgx/main.go, lines 228-234): `Int(int64(v))` for each
element, appended to an empty, non-nil slice. -/
def Integers (s : Slice Int) : Slice Expression :=
  s.toList.foldl (fun expressions v => expressions.append (Expression.int v)) (Slice.of [])

/-- The function `Strings` (cmd/jet/pgx/main.go, lines 237-243). -/
def Strings (s : Slice String) : Slice Expression :=
  s.toList.foldl (fun expressions v => expressions.append (Expression.string v)) (Slice.of [])

/-- The function `Enums` (cmd/jet/pgx/main.go, lines 246-252). -/
def Enums (s : Slice String) : Slice Expression :=
  s.toList.foldl (fun expressions v => expressions.append (Expression.enumValue v)) (Slice.of [])

/-- The function `WhereAnd` (cmd/jet/pgx/main.go, lines 255-265): the loop over `wheres`, with
`none` for the nil `where`. -/
def WhereAnd (wheres : Slice BoolExpression) : Option BoolExpression :=
  wheres.toList.foldl
    (fun whereExpr w =>
      match whereExpr with
      | none => some w
      | some e => some (BoolExpression.and e w))
    none

/-- Lines 120-129 of `SelectAllAccountsByFilter` (cmd/jet/pgx/main.go): the slice of where
expressions. -/
def filterWheres (filters : Filters) : Except GoPanic (Slice BoolExpression) := do
  let mut wheres : Slice BoolExpression := Slice.nil
  if filters.Names.len > 0 then
    wheres := wheres.append (BoolExpression.isIn "name" (Strings filters.Names).toList)
  if filters.Active != none then
    wheres := wheres.append
      (BoolExpression.eq "active" (Expression.bool (← deref filters.Active)))
  if filters.FavColors.len > 0 then
    wheres := wheres.append (BoolExpression.isIn "fav_color" (Enums filters.FavColors).toList)
  return wheres

/-- Line 135 of `SelectAllAccountsByFilter` (cmd/jet/pgx/main.go): the condition handed to
`WHERE`. -/
def whereCondition (filters : Filters) : Except GoPanic (Option BoolExpression) := do
  return WhereAnd (← filterWheres filters)

end JetPgx

/-- The operands of a conjunction nested `depth` levels to the left: for
`((a AND b) AND c)` and depth 2 they are `a`, `b`, `c`. -/
def BoolExpression.operands : Nat → BoolExpression → List BoolExpression
  | depth + 1, BoolExpression.and lhs rhs => BoolExpression.operands depth lhs ++ [rhs]
  | _, e => [e]

/-- The where expression that the jet adapters build for a field, when the
field is populated. -/
def Field.jetExpression (f : Filters) : Field → Option BoolExpression
  | Field.names =>
    some (BoolExpression.isIn "name" (f.Names.toList.map Expression.string))
  | Field.active => f.Active.map (fun b => BoolExpression.eq "active" (Expression.bool b))
  | Field.favColors =>
    some (BoolExpression.isIn "fav_color" (f.FavColors.toList.map Expression.enumValue))

/-! ## cmd/sq/main.go -/

namespace Sq

/-- The initial value of `query` in `SelectAllAccountsByFilter` (cmd/sq/main.go,
from line 87). -/
def baseQuery : String := "\n\t\tSELECT \x7b*\x7d\n\t\tFROM accounts"

/-- Lines 92-105 of `SelectAllAccountsByFilter` (cmd/sq/main.go): the
conditions, with anonymous placeholders, and the arguments. -/
def buildWheres (filters : Filters) : Except GoPanic (Slice String × Slice GoAny) := do
  let mut wheres : Slice String := Slice.nil
  let mut args : Slice GoAny := Slice.nil
  if filters.Names.len > 0 then
    wheres := wheres.append "name = ANY(\x7b\x7d)"
    args := args.append (GoAny.strings filters.Names)
  if filters.Active != none then
    wheres := wheres.append "active = \x7b\x7d"
    args := args.append (GoAny.bool (← deref filters.Active))
  if filters.FavColors.len > 0 then
    wheres := wheres.append "fav_color = ANY(\x7b\x7d)"
    args := args.append (GoAny.strings filters.FavColors)
  return (wheres, args)

/-- Lines 87-109 of `SelectAllAccountsByFilter` (cmd/sq/main.go): the query text
and the arguments handed to `sq.Queryf`. -/
def SelectAllAccountsByFilter (filters : Filters) : Except GoPanic (String × Slice GoAny) := do
  let mut query := baseQuery
  let (wheres, args) ← buildWheres filters
  if wheres.len > 0 then
    query := query ++ (" WHERE " ++ String.intercalate " AND " wheres.toList)
  return (query, args)

end Sq

/-- Scanner that rewrites numbered placeholders as anonymous ones. `pending`
is true right after a dollar sign that is not yet written, `skipping` while
the digits of a placeholder are passed over. -/
def anonymizeFrom : Bool → Bool → List Char → List Char
  | pending, _, [] => if pending then ['$'] else []
  | pending, skipping, c :: cs =>
    if c.isDigit then
      if pending then '{' :: '}' :: anonymizeFrom false true cs
      else if skipping then anonymizeFrom false true cs
      else c :: anonymizeFrom false false cs
    else if c = '$' then
      if pending then '$' :: anonymizeFrom true false cs else anonymizeFrom true false cs
    else
      if pending then '$' :: c :: anonymizeFrom false false cs
      else c :: anonymizeFrom false false cs

/-- The text with every numbered placeholder (a dollar sign followed by
digits) replaced by the anonymous placeholder, an opening and a closing
brace. -/
def anonymize (text : String) : String := String.mk (anonymizeFrom false false text.data)

/-- Number of anonymous placeholders, an opening brace directly followed by a
closing one, in a sequence of characters. -/
def countAnonymous : List Char → Nat
  | [] => 0
  | c :: cs =>
    match cs with
    | d :: _ => (if c = '{' ∧ d = '}' then 1 else 0) + countAnonymous cs
    | [] => 0

/-- Condition text of a field in the sq adapter. -/
def Field.sqCondition : Field → String
  | Field.names => "name = ANY(\x7b\x7d)"
  | Field.active => "active = \x7b\x7d"
  | Field.favColors => "fav_color = ANY(\x7b\x7d)"

/-! ## The fetch-all queries (SelectAllAccounts) and the squirrel filter -/

/-- A select statement as the calls on a query builder describe it: the
columns, the table, the conditions handed to `Where` and the columns handed to
the order-by call, each in the order of the calls. -/
structure BuiltSelect where
  columns : List String
  table : String
  wheres : List (String × GoAny)
  orderBy : List String
deriving DecidableEq, Repr

/-- The constant `query` of `SelectAllAccounts` in cmd/pgx/main.go (lines 58-69). -/
def Pgx.SelectAllAccounts : String :=
  "\n\t\tSELECT\n\t\t\tid,\n\t\t\tname,\n\t\t\temail,\n\t\t\tactive,\n\t\t\tfav_color,\n\t\t\tfav_numbers,\n\t\t\tproperties,\n\t\t\tcreated_at\n\t\tFROM accounts\n\t\tORDER BY id"

/-- The constant `query` of `SelectAllAccounts` in cmd/scan/main.go (lines 56-67). -/
def Scan.SelectAllAccounts : String :=
  "\n\t\tSELECT\n\t\t\tid,\n\t\t\tname,\n\t\t\temail,\n\t\t\tactive,\n\t\t\tfav_color,\n\t\t\tfav_numbers,\n\t\t\tproperties,\n\t\t\tcreated_at\n\t\tFROM accounts\n\t\tORDER BY id"

/-- The constant `query` of `SelectAllAccounts` in cmd/sqlx/main.go (lines 53-64). -/
def Sqlx.SelectAllAccounts : String :=
  "\n\t\tSELECT\n\t\t\tid,\n\t\t\tname,\n\t\t\temail,\n\t\t\tactive,\n\t\t\tfav_color,\n\t\t\tfav_numbers,\n\t\t\tproperties,\n\t\t\tcreated_at\n\t\tFROM accounts\n\t\tORDER BY id"

/-- The constant `query` of `SelectAllAccounts` in cmd/ksql/main.go (lines 50-61). -/
def Ksql.SelectAllAccounts : String :=
  "\n\t\tSELECT\n\t\t\tid,\n\t\t\tname,\n\t\t\temail,\n\t\t\tactive,\n\t\t\tfav_color,\n\t\t\tfav_numbers,\n\t\t\tproperties,\n\t\t\tcreated_at\n\t\tFROM accounts\n\t\tORDER BY id"

/-- The builder calls of `SelectAllAccounts` in cmd/goqu/main.go (lines 49-58):
`Select` and `From`. -/
def Goqu.SelectAllAccounts : BuiltSelect :=
  { columns := ["id", "name", "email", "active", "fav_color", "fav_numbers", "properties", "created_at"]
    table := "accounts", wheres := [], orderBy := [] }

/-- The builder calls of `SelectAllAccounts` in cmd/goqu/pgx/main.go
(lines 70-79): `Select` and `From`. -/
def GoquPgx.SelectAllAccounts : BuiltSelect :=
  { columns := ["id", "name", "email", "active", "fav_color", "fav_numbers", "properties", "created_at"]
    table := "accounts", wheres := [], orderBy := [] }

/-- The builder calls of `SelectAllAccounts` in cmd/squirrel/main.go
(lines 65-76): `Select`, `From` and `OrderBy`. -/
def Squirrel.SelectAllAccounts : BuiltSelect :=
  { columns := ["id", "name", "email", "active", "fav_color", "fav_numbers", "properties", "created_at"]
    table := "accounts", wheres := [], orderBy := ["id"] }

/-- The builder call of `SelectAllAccounts` in cmd/sqlbuilder/main.go (line 69):
`accountModel.SelectFrom("accounts")`, the columns being those of the `db` tags
of `models.AccountIdeal`. -/
def Sqlbuilder.SelectAllAccounts : BuiltSelect :=
  { columns := ["id", "name", "email", "active", "fav_color", "fav_numbers", "properties", "created_at"]
    table := "accounts", wheres := [], orderBy := [] }

/-- The builder calls of `SelectAllAccounts` in cmd/jet/main.go (lines 74-78) and
cmd/jet/pgx/main.go (lines 77-81): `SELECT(Accounts.AllColumns)`, `FROM` and
`ORDER_BY(Accounts.ID)`, with the columns of the generated table. -/
def Jet.SelectAllAccounts : BuiltSelect :=
  { columns := ["id", "name", "email", "active", "fav_color", "fav_numbers", "properties", "created_at"]
    table := "accounts", wheres := [], orderBy := ["id"] }

/-- Lines 116-138 of `SelectAllAccountsByFilter` in cmd/squirrel/main.go: the
builder calls, `OrderBy("id")` among them, then one `Where` per populated
field. -/
def Squirrel.SelectAllAccountsByFilter (filters : Filters) : Except GoPanic BuiltSelect := do
  let mut query : BuiltSelect :=
    { columns := ["id", "name", "email", "active", "fav_color", "fav_numbers", "properties", "created_at"]
      table := "accounts", wheres := [], orderBy := ["id"] }
  if filters.Names.len > 0 then
    query := { query with wheres := query.wheres ++ [("name", GoAny.strings filters.Names)] }
  if filters.Active != none then
    query := { query with
      wheres := query.wheres ++ [("active", GoAny.bool (← deref filters.Active))] }
  if filters.FavColors.len > 0 then
    query := { query with
      wheres := query.wheres ++ [("fav_color", GoAny.strings filters.FavColors)] }
  return query

/-- Modelled from the spec: how the goqu library, which is not part of the
sources, reads the value of a `goqu.Ex` when it renders the statement. It
follows a pointer to the value pointed to, so that the statement carries "the
boolean value (dereferenced, not the optional wrapper)" as the spec has it for
every adapter, and takes any other value as it is; `none` is the SQL NULL that
stands for a nil pointer. -/
def goquBoundValue : GoAny → Option GoAny
  | GoAny.boolPtr none => none
  | GoAny.boolPtr (some b) => some (GoAny.bool b)
  | GoAny.bool b => some (GoAny.bool b)
  | GoAny.strings s => some (GoAny.strings s)

/-- The column of a `goqu.Ex` and the value that the rendered statement
carries for it. -/
def GoquEx.bound (e : GoquEx) : String × Option GoAny :=
  (e.column, goquBoundValue e.value)

/-- The value that the goqu/pgx adapter hands to `goqu.Ex` for a populated
field: the slice, or the pointer `filters.Active` itself. -/
def Field.goquPgxValue (f : Filters) : Field → Option GoAny
  | Field.names => some (GoAny.strings f.Names)
  | Field.active => f.Active.map (fun _ => GoAny.boolPtr f.Active)
  | Field.favColors => some (GoAny.strings f.FavColors)

/-- Lines 107-128 of `SelectAllAccountsByFilter` in cmd/sqlbuilder/main.go: the
builder calls, one `Where` per populated field (`sb.In` with the whole list for
the two slices, `sb.EQ` for the boolean). -/
def Sqlbuilder.SelectAllAccountsByFilter (filters : Filters) : Except GoPanic BuiltSelect := do
  let mut query : BuiltSelect :=
    { columns := ["id", "name", "email", "active", "fav_color", "fav_numbers", "properties", "created_at"]
      table := "accounts", wheres := [], orderBy := [] }
  if filters.Names.len > 0 then
    query := { query with wheres := query.wheres ++ [("name", GoAny.strings filters.Names)] }
  if filters.Active != none then
    query := { query with
      wheres := query.wheres ++ [("active", GoAny.bool (← deref filters.Active))] }
  if filters.FavColors.len > 0 then
    query := { query with
      wheres := query.wheres ++ [("fav_color", GoAny.strings filters.FavColors)] }
  return query

/-! ## models.SliceToStr (models/models.go) -/

/-- What `reflect` and `fmt` make of the element type of a slice: `asByte` is
the byte an element stands for when the kind of the element type is `Uint8`,
and `none` for every other kind; `sprint` is `fmt.Sprint` of one element. -/
structure ElementFormat (T : Type) where
  asByte : Option (T → UInt8)
  sprint : T → String

/-- The Go string that a text stands for: a Go string is a sequence of bytes,
and a text is held as the bytes of its UTF-8 encoding. -/
def goString (text : String) : List UInt8 :=
  text.data.flatMap String.utf8EncodeChar

/-- The function `SliceToStr` (models/models.go, lines 128-137), returning the
bytes of the Go string: `<nil>` for the nil slice, the bytes of the slice
themselves (`fmt.Sprintf("%s", v)`) for a slice of bytes, and `fmt.Sprint(v)`,
the elements between square brackets, otherwise. -/
def SliceToStr {T : Type} (format : ElementFormat T) (v : Slice T) : List UInt8 :=
  match v with
  | Slice.nil => goString "<nil>"
  | Slice.of elems =>
    match format.asByte with
    | some toByte => elems.map toByte
    | none => goString ("[" ++ String.intercalate " " (elems.map format.sprint) ++ "]")

/-- The element type `byte`. -/
def byteFormat : ElementFormat UInt8 :=
  { asByte := some id, sprint := fun b => toString b.toNat }

/-- The element type `int`. -/
def intFormat : ElementFormat Int :=
  { asByte := none, sprint := fun n => toString n }

/-! ## Lemmas on slices -/

namespace Slice

variable {α : Type}

@[simp] theorem len_nil : (Slice.nil : Slice α).len = 0 := rfl

@[simp] theorem len_of_nil : (Slice.of ([] : List α)).len = 0 := rfl

theorem len_of_cons_pos (x : α) (xs : List α) : (Slice.of (x :: xs)).len > 0 := by
  simp only [len, toList, List.length_cons]
  omega

theorem len_pos_iff (s : Slice α) : s.len > 0 ↔ s.toList ≠ [] := by
  rcases s with _ | (_ | ⟨x, xs⟩)
  · simp [toList]
  · simp [toList]
  · simp [toList, len_of_cons_pos]

end Slice

theorem Pgx.buildWheres_eq (f : Filters) :
    Pgx.buildWheres f = Except.ok
      (Slice.appendAll Slice.nil (expectedConditions f),
        Slice.appendAll Slice.nil (expectedArguments f)) := by
  rcases f with ⟨names, active, favs⟩
  rcases names with _ | (_ | ⟨x, xs⟩) <;> rcases active with _ | b <;>
    rcases favs with _ | (_ | ⟨y, ys⟩) <;>
    simp [Pgx.buildWheres, Slice.len_of_cons_pos, deref, expectedConditions, expectedArguments,
      populatedFields, Field.all, Field.populated, Field.argument, Field.condition,
      Slice.appendAll, List.enumFrom] <;> rfl

theorem Slice.toList_appendAll_nil {α : Type} (xs : List α) :
    (Slice.appendAll Slice.nil xs).toList = xs := by
  have h : ∀ (ys : List α) (s : Slice α), (Slice.appendAll s ys).toList = s.toList ++ ys := by
    intro ys
    induction ys with
    | nil => intro s; simp [Slice.appendAll]
    | cons y ys ih =>
      intro s
      have := ih (s.append y)
      simp only [Slice.appendAll, List.foldl_cons] at this ⊢
      rw [this]
      simp [Slice.append, Slice.toList]
  simpa [Slice.toList] using h xs Slice.nil

theorem Pgx.SelectAllAccountsByFilter_eq (f : Filters) :
    Pgx.SelectAllAccountsByFilter f = Except.ok
      (if (expectedConditions f).length > 0 then
          Pgx.baseQuery ++ (" WHERE " ++ String.intercalate " AND " (expectedConditions f))
        else Pgx.baseQuery,
        Slice.appendAll Slice.nil (expectedArguments f)) := by
  simp only [Pgx.SelectAllAccountsByFilter, Pgx.buildWheres_eq f, bind, Except.bind, pure,
    Except.pure, Slice.len, Slice.toList_appendAll_nil]
  by_cases hl : (expectedConditions f).length > 0
  · have hi : ((expectedConditions f).length : Int) > 0 := by omega
    rw [if_pos hl, if_pos hi]
  · have hi : ¬ ((expectedConditions f).length : Int) > 0 := by omega
    rw [if_neg hl, if_neg hi]

/-- C1: for the filters that `main` passes (names Jane and John, active
present and true, colours red, blue and green) the builder yields the three
conditions numbered 1 to 3 and the three arguments: the names slice, the
boolean, the colours slice. -/
theorem Pgx.buildWheres_mainFilters :
    Pgx.buildWheres mainFilters = Except.ok
      (Slice.of ["name = ANY($1)", "active = $2", "fav_color = ANY($3)"],
        Slice.of [GoAny.strings (Slice.of ["Jane", "John"]), GoAny.bool true,
          GoAny.strings (Slice.of ["red", "blue", "green"])]) := by
  rfl

/-- C2: when Names is nil or empty, Active is nil and FavColors is nil or
empty, the builder returns no condition and no argument (both slices are still
nil, of length 0). -/
theorem Pgx.buildWheres_unpopulated (f : Filters)
    (hn : f.Names = Slice.nil ∨ f.Names = Slice.of [])
    (ha : f.Active = none)
    (hc : f.FavColors = Slice.nil ∨ f.FavColors = Slice.of []) :
    ∃ w a, Pgx.buildWheres f = Except.ok (w, a) ∧ w.toList = [] ∧ a.toList = [] ∧
      w.len = 0 ∧ a.len = 0 := by
  rcases f with ⟨names, active, favs⟩
  simp only at hn ha hc
  subst ha
  rcases hn with rfl | rfl <;> rcases hc with rfl | rfl <;>
    exact ⟨Slice.nil, Slice.nil, rfl, rfl, rfl, rfl, rfl⟩

theorem Pgx.buildWheres_unpopulated_witness :
    ((Slice.of [] : Slice String) = Slice.nil ∨ (Slice.of [] : Slice String) = Slice.of []) ∧
    ((Slice.nil : Slice String) = Slice.nil ∨ (Slice.nil : Slice String) = Slice.of []) ∧
    ∃ w a, Pgx.buildWheres { Names := Slice.of [], Active := none, FavColors := Slice.nil } =
      Except.ok (w, a) ∧ w.toList = [] ∧ a.toList = [] ∧ w.len = 0 ∧ a.len = 0 :=
  ⟨Or.inr rfl, Or.inl rfl,
    Pgx.buildWheres_unpopulated { Names := Slice.of [], Active := none, FavColors := Slice.nil }
      (Or.inr rfl) rfl (Or.inl rfl)⟩

/-- C3: a present Active pointer counts as populated whatever boolean it points
to: with Names and FavColors of length 0 and Active pointing to `b`, the
builder returns the single condition `active = $1` and the single argument
`b`; in particular so for `b = false`. -/
theorem Pgx.buildWheres_active_only (b : Bool) (names favs : Slice String)
    (hn : names.len = 0) (hc : favs.len = 0) :
    Pgx.buildWheres { Names := names, Active := some b, FavColors := favs } =
      Except.ok (Slice.of ["active = $1"], Slice.of [GoAny.bool b]) := by
  rcases names with _ | (_ | ⟨x, xs⟩)
  · rcases favs with _ | (_ | ⟨y, ys⟩)
    · rfl
    · rfl
    · exact absurd hc (ne_of_gt (Slice.len_of_cons_pos y ys))
  · rcases favs with _ | (_ | ⟨y, ys⟩)
    · rfl
    · rfl
    · exact absurd hc (ne_of_gt (Slice.len_of_cons_pos y ys))
  · exact absurd hn (ne_of_gt (Slice.len_of_cons_pos x xs))

theorem Pgx.buildWheres_active_only_witness :
    (Slice.of [] : Slice String).len = 0 ∧
    Pgx.buildWheres { Names := Slice.of [], Active := some false, FavColors := Slice.of [] } =
      Except.ok (Slice.of ["active = $1"], Slice.of [GoAny.bool false]) :=
  ⟨rfl, Pgx.buildWheres_active_only false (Slice.of []) (Slice.of []) rfl rfl⟩

/-- C4: for every filter value the conditions and the arguments returned by
the builder have the same length. -/
theorem Pgx.buildWheres_len_eq (f : Filters) :
    ∃ w a, Pgx.buildWheres f = Except.ok (w, a) ∧ w.len = a.len ∧
      w.toList.length = a.toList.length := by
  rcases f with ⟨names, active, favs⟩
  rcases names with _ | (_ | ⟨x, xs⟩) <;> rcases active with _ | b <;>
    rcases favs with _ | (_ | ⟨y, ys⟩) <;>
    exact ⟨_, _, Pgx.buildWheres_eq _, rfl, rfl⟩

/-- C5: for every filter value the conditions are those of the populated
fields, kept in the order names, active, favColors and numbered from 1, and
the arguments are the values of the same fields in the same order. -/
theorem Pgx.buildWheres_populated_in_order (f : Filters) :
    ∃ w a, Pgx.buildWheres f = Except.ok (w, a) ∧
      w.toList = expectedConditions f ∧ a.toList = expectedArguments f ∧
      (populatedFields f).Sublist [Field.names, Field.active, Field.favColors] :=
  ⟨_, _, Pgx.buildWheres_eq f, Slice.toList_appendAll_nil _, Slice.toList_appendAll_nil _,
    List.filter_sublist _⟩

theorem Pgx.buildWheres_table (f : Filters) :
    ∃ w a, Pgx.buildWheres f = Except.ok (w, a) ∧
      (Field.populated f Field.names, Field.populated f Field.active,
        Field.populated f Field.favColors, w.toList, a.toList.length) ∈
      [(false, false, false, [], 0),
       (false, false, true, ["fav_color = ANY($1)"], 1),
       (false, true, false, ["active = $1"], 1),
       (false, true, true, ["active = $1", "fav_color = ANY($2)"], 2),
       (true, false, false, ["name = ANY($1)"], 1),
       (true, false, true, ["name = ANY($1)", "fav_color = ANY($2)"], 2),
       (true, true, false, ["name = ANY($1)", "active = $2"], 2),
       (true, true, true, ["name = ANY($1)", "active = $2", "fav_color = ANY($3)"], 3)] := by
  rcases f with ⟨names, active, favs⟩
  rcases names with _ | (_ | ⟨x, xs⟩) <;> rcases active with _ | b <;>
    rcases favs with _ | (_ | ⟨y, ys⟩) <;>
    refine ⟨_, _, Pgx.buildWheres_eq _, ?_⟩ <;>
    first
      | exact List.Mem.head _
      | exact List.Mem.tail _ (List.Mem.head _)
      | exact List.Mem.tail _ (List.Mem.tail _ (List.Mem.head _))
      | exact List.Mem.tail _ (List.Mem.tail _ (List.Mem.tail _ (List.Mem.head _)))
      | exact List.Mem.tail _ (List.Mem.tail _ (List.Mem.tail _ (List.Mem.tail _ (List.Mem.head _))))
      | exact List.Mem.tail _ (List.Mem.tail _ (List.Mem.tail _ (List.Mem.tail _
          (List.Mem.tail _ (List.Mem.head _)))))
      | exact List.Mem.tail _ (List.Mem.tail _ (List.Mem.tail _ (List.Mem.tail _
          (List.Mem.tail _ (List.Mem.tail _ (List.Mem.head _))))))
      | exact List.Mem.tail _ (List.Mem.tail _ (List.Mem.tail _ (List.Mem.tail _
          (List.Mem.tail _ (List.Mem.tail _ (List.Mem.tail _ (List.Mem.head _)))))))

/-- C6: for every filter value the i-th condition holds the placeholder
numbered i and no other, the placeholders of the joined condition text are
1, 2, ... up to the number of arguments, in that order, and there are as many
of them as arguments. -/
theorem Pgx.buildWheres_placeholders (f : Filters) :
    ∃ w a, Pgx.buildWheres f = Except.ok (w, a) ∧
      w.toList.map placeholders = (List.range' 1 w.toList.length).map (fun k => [k]) ∧
      placeholders (String.intercalate " AND " w.toList) = List.range' 1 a.toList.length ∧
      (placeholders (String.intercalate " AND " w.toList)).length = a.toList.length := by
  obtain ⟨w, a, hok, hmem⟩ := Pgx.buildWheres_table f
  refine ⟨w, a, hok, ?_⟩
  simp only [List.mem_cons, List.mem_singleton, Prod.mk.injEq, List.not_mem_nil, or_false] at hmem
  rcases hmem with h | h | h | h | h | h | h | h <;>
    obtain ⟨-, -, -, hw, ha⟩ := h <;> rw [hw, ha] <;> decide

/-- C7: whenever Names is non-empty, whatever its length, exactly one
condition mentions the name column, it is the first one and reads
`name = ANY($1)`, and the first argument is the Names slice as a whole; there
is one argument per condition, so at most three and not one per name. -/
theorem Pgx.buildWheres_names_single (f : Filters) (h : f.Names.len > 0) :
    ∃ w a, Pgx.buildWheres f = Except.ok (w, a) ∧
      w.toList.filter (mentions "name") = ["name = ANY($1)"] ∧
      w.toList.head? = some "name = ANY($1)" ∧
      a.toList.head? = some (GoAny.strings f.Names) ∧
      a.toList.length = w.toList.length ∧ a.toList.length ≤ 3 := by
  have hpop : Field.populated f Field.names = true := by
    have hne := (Slice.len_pos_iff f.Names).mp h
    simp only [Field.populated, Bool.not_eq_true', List.isEmpty_eq_false]
    exact hne
  have harg : (expectedArguments f).head? = some (GoAny.strings f.Names) := by
    simp [expectedArguments, populatedFields, Field.all, List.filter, hpop, Field.argument]
  obtain ⟨w, a, hok, hmem⟩ := Pgx.buildWheres_table f
  have ha2 : a.toList = expectedArguments f := by
    have h2 := Pgx.buildWheres_eq f
    rw [hok] at h2
    injection h2 with h3
    injection h3 with _ h4
    rw [h4]
    exact Slice.toList_appendAll_nil _
  refine ⟨w, a, hok, ?_, ?_, by rw [ha2]; exact harg, ?_, ?_⟩ <;>
    simp only [List.mem_cons, List.mem_singleton, Prod.mk.injEq, List.not_mem_nil,
      or_false] at hmem <;>
    rcases hmem with h | h | h | h | h | h | h | h <;>
    obtain ⟨hn, -, -, hw, ha⟩ := h <;>
    first
      | exact absurd (hpop.symm.trans hn) (by decide)
      | (rw [hw] <;> decide)
      | (rw [ha, hw] <;> decide)
      | (rw [ha] <;> decide)

theorem Pgx.buildWheres_names_single_witness :
    (Slice.of ["Jane", "John", "Joan", "June"]).len > 0 ∧
    ∃ w a, Pgx.buildWheres
        { Names := Slice.of ["Jane", "John", "Joan", "June"], Active := none,
          FavColors := Slice.nil } = Except.ok (w, a) ∧
      w.toList.filter (mentions "name") = ["name = ANY($1)"] ∧
      w.toList.head? = some "name = ANY($1)" ∧
      a.toList.head? = some (GoAny.strings (Slice.of ["Jane", "John", "Joan", "June"])) ∧
      a.toList.length = w.toList.length ∧ a.toList.length ≤ 3 :=
  ⟨by decide, Pgx.buildWheres_names_single
    { Names := Slice.of ["Jane", "John", "Joan", "June"], Active := none,
      FavColors := Slice.nil } (by decide)⟩

/-- C8: for every filter value there are as many conditions, and as many
arguments, as populated fields, and a condition mentioning the column of a
field exists exactly when that field is populated. -/
theorem Pgx.buildWheres_one_per_populated (f : Filters) :
    ∃ w a, Pgx.buildWheres f = Except.ok (w, a) ∧
      w.toList.length = (populatedFields f).length ∧
      a.toList.length = (populatedFields f).length ∧
      ∀ fld : Field, w.toList.any (mentions fld.column) = Field.populated f fld := by
  obtain ⟨w, a, hok, hmem⟩ := Pgx.buildWheres_table f
  refine ⟨w, a, hok, ?_⟩
  simp only [List.mem_cons, List.mem_singleton, Prod.mk.injEq, List.not_mem_nil, or_false] at hmem
  rcases hmem with h | h | h | h | h | h | h | h <;>
    obtain ⟨hn, hb, hc, hw, ha⟩ := h <;>
    refine ⟨?_, ?_, ?_⟩ <;>
    first
      | (intro fld
         cases fld
         · rw [hw, hn]; decide
         · rw [hw, hb]; decide
         · rw [hw, hc]; decide)
      | (simp only [populatedFields, Field.all, List.filter, hn, hb, hc, hw, ha]; rfl)

/-- C9, as worded, fails: for the filters of `main` the statement text has a
blank between the base text and `WHERE`, which the wording leaves out. -/
theorem Pgx.statement_not_as_worded :
    ∃ q a, Pgx.SelectAllAccountsByFilter mainFilters = Except.ok (q, a) ∧
      q = Pgx.baseQuery ++
        " WHERE name = ANY($1) AND active = $2 AND fav_color = ANY($3)" ∧
      q ≠ statementAsWorded ["name = ANY($1)", "active = $2", "fav_color = ANY($3)"] :=
  ⟨_, _, rfl, rfl, by decide⟩

/-- C9, amended: for every filter value the statement text is the base text
followed, when there is at least one condition, by the text ` WHERE ` (a blank
on either side) and the conditions joined with ` AND `, and it is the base
text alone, which holds no WHERE, when there is no condition; the conditions
are those of the populated fields. -/
theorem Pgx.SelectAllAccountsByFilter_statement (f : Filters) :
    ∃ w a, Pgx.buildWheres f = Except.ok (w, a) ∧
      w.toList = expectedConditions f ∧
      Pgx.SelectAllAccountsByFilter f = Except.ok
        (if w.toList.length > 0 then
            Pgx.baseQuery ++ (" WHERE " ++ String.intercalate " AND " w.toList)
          else Pgx.baseQuery, a) ∧
      mentions "WHERE" Pgx.baseQuery = false := by
  refine ⟨_, _, Pgx.buildWheres_eq f, Slice.toList_appendAll_nil _, ?_, by decide⟩
  rw [Pgx.SelectAllAccountsByFilter_eq f, Slice.toList_appendAll_nil]

/-- C10: the builder is total: every filter value, the zero value included,
yields conditions and arguments and never a panic, so the nil Active pointer
is never dereferenced; the statement text is built for every filter value as
well. -/
theorem Pgx.buildWheres_total (f : Filters) :
    (∃ w a, Pgx.buildWheres f = Except.ok (w, a)) ∧
      (∀ e : GoPanic, Pgx.buildWheres f ≠ Except.error e) ∧
      (∃ q a, Pgx.SelectAllAccountsByFilter f = Except.ok (q, a)) ∧
      Pgx.buildWheres { Names := Slice.nil, Active := none, FavColors := Slice.nil } =
        Except.ok (Slice.nil, Slice.nil) ∧
      deref (none : Option Bool) = Except.error GoPanic.nilPointerDereference := by
  refine ⟨⟨_, _, Pgx.buildWheres_eq f⟩, ?_, ?_, rfl, rfl⟩
  · intro e he
    rw [Pgx.buildWheres_eq f] at he
    cases he
  · exact ⟨_, _, Pgx.SelectAllAccountsByFilter_eq f⟩

theorem Goqu.goqu_wheres_eq (f : Filters) :
    Goqu.filterWheres f = Except.ok
      ((populatedFields f).filterMap
        (fun fld => (Field.argument f fld).map (fun v => { column := fld.column, value := v }))) := by
  rcases f with ⟨names, active, favs⟩
  rcases names with _ | (_ | ⟨x, xs⟩) <;> rcases active with _ | b <;>
    rcases favs with _ | (_ | ⟨y, ys⟩) <;>
    simp [Goqu.filterWheres, Slice.len_of_cons_pos, deref, populatedFields,
      Field.all, Field.populated, Field.argument, Field.column] <;> rfl

theorem GoquPgx.pointer_wheres_eq (f : Filters) :
    GoquPgx.filterWheres f = Except.ok
      ((populatedFields f).filterMap
        (fun fld =>
          (Field.goquPgxValue f fld).map (fun v => { column := fld.column, value := v }))) := by
  rcases f with ⟨names, active, favs⟩
  rcases names with _ | (_ | ⟨x, xs⟩) <;> rcases active with _ | b <;>
    rcases favs with _ | (_ | ⟨y, ys⟩) <;>
    simp [GoquPgx.filterWheres, Slice.len_of_cons_pos, deref, populatedFields,
      Field.all, Field.populated, Field.goquPgxValue, Field.column] <;> rfl

theorem GoquPgx.pointer_wheres_bound_eq (f : Filters) :
    ∃ exs, GoquPgx.filterWheres f = Except.ok exs ∧
      exs.map GoquEx.bound =
        (populatedFields f).filterMap
          (fun fld => (Field.argument f fld).map (fun v => (fld.column, some v))) := by
  refine ⟨_, GoquPgx.pointer_wheres_eq f, ?_⟩
  rcases f with ⟨names, active, favs⟩
  rcases names with _ | (_ | ⟨x, xs⟩) <;> rcases active with _ | b <;>
    rcases favs with _ | (_ | ⟨y, ys⟩) <;> rfl

theorem Goqu.goqu_wheres_bound_eq (f : Filters) :
    ∃ exs, Goqu.filterWheres f = Except.ok exs ∧
      exs.map GoquEx.bound =
        (populatedFields f).filterMap
          (fun fld => (Field.argument f fld).map (fun v => (fld.column, some v))) := by
  refine ⟨_, Goqu.goqu_wheres_eq f, ?_⟩
  rcases f with ⟨names, active, favs⟩
  rcases names with _ | (_ | ⟨x, xs⟩) <;> rcases active with _ | b <;>
    rcases favs with _ | (_ | ⟨y, ys⟩) <;> rfl

/-- C12: two filter values that agree on which fields are populated get the
same statement text, whatever the names, the colours and the boolean. -/
theorem Pgx.SelectAllAccountsByFilter_text_stable (f g : Filters)
    (hn : f.Names.len > 0 ↔ g.Names.len > 0)
    (ha : f.Active = none ↔ g.Active = none)
    (hc : f.FavColors.len > 0 ↔ g.FavColors.len > 0) :
    ∃ q a b, Pgx.SelectAllAccountsByFilter f = Except.ok (q, a) ∧
      Pgx.SelectAllAccountsByFilter g = Except.ok (q, b) := by
  have hpop : Field.populated f = Field.populated g := by
    funext fld
    cases fld
    · have h1 := Slice.len_pos_iff f.Names
      have h2 := Slice.len_pos_iff g.Names
      simp only [Field.populated]
      cases hf : f.Names.toList <;> cases hg : g.Names.toList <;> simp_all
    · simp only [Field.populated]
      cases hf : f.Active <;> cases hg : g.Active <;> simp_all
    · have h1 := Slice.len_pos_iff f.FavColors
      have h2 := Slice.len_pos_iff g.FavColors
      simp only [Field.populated]
      cases hf : f.FavColors.toList <;> cases hg : g.FavColors.toList <;> simp_all
  have hcond : expectedConditions f = expectedConditions g := by
    simp only [expectedConditions, populatedFields, hpop]
  refine ⟨_, _, Slice.appendAll Slice.nil (expectedArguments g),
    Pgx.SelectAllAccountsByFilter_eq f, ?_⟩
  rw [Pgx.SelectAllAccountsByFilter_eq g, hcond]

theorem Pgx.SelectAllAccountsByFilter_text_stable_witness :
    (mainFilters.Names.len > 0 ↔ (Slice.of ["Zoe"]).len > 0) ∧
    ∃ q a b, Pgx.SelectAllAccountsByFilter mainFilters = Except.ok (q, a) ∧
      Pgx.SelectAllAccountsByFilter
        { Names := Slice.of ["Zoe"], Active := some false, FavColors := Slice.of ["black"] } =
        Except.ok (q, b) :=
  ⟨by decide, Pgx.SelectAllAccountsByFilter_text_stable mainFilters
    { Names := Slice.of ["Zoe"], Active := some false, FavColors := Slice.of ["black"] }
    (by decide) (by decide) (by decide)⟩

/-- C20: the scan, sqlx and ksql adapters build, for every filter value, the
same statement text and the same argument list as the pgx adapter. -/
theorem SelectAllAccountsByFilter_same_in_raw_adapters (f : Filters) :
    Scan.SelectAllAccountsByFilter f = Pgx.SelectAllAccountsByFilter f ∧
      Sqlx.SelectAllAccountsByFilter f = Pgx.SelectAllAccountsByFilter f ∧
      Ksql.SelectAllAccountsByFilter f = Pgx.SelectAllAccountsByFilter f ∧
      ∃ q a, Pgx.SelectAllAccountsByFilter f = Except.ok (q, a) :=
  ⟨rfl, rfl, rfl, _, _, Pgx.SelectAllAccountsByFilter_eq f⟩

/-- C19: in the pgx, ksql and scan adapters `SelectAccountByID` answers a
missing row with found false and no error, any other error of the row lookup
with found false and that very error, and success with found true and no
error; so found true always comes without an error. In the scan adapter an
error of the query call itself is returned as it is, with found false. -/
theorem SelectAccountByID_signals_no_rows {Account : Type} [Inhabited Account]
    (account : Account) (err : Option GoError) :
    ((errorsIs err Pgx.ErrNoRows = true →
          Pgx.SelectAccountByID account err = (account, false, none)) ∧
        (errorsIs err Pgx.ErrNoRows = false → err ≠ none →
          Pgx.SelectAccountByID account err = (account, false, err)) ∧
        (err = none → Pgx.SelectAccountByID account err = (account, true, none)) ∧
        ((Pgx.SelectAccountByID account err).2.1 = true →
          (Pgx.SelectAccountByID account err).2.2 = none)) ∧
      ((errorsIs err Ksql.ErrRecordNotFound = true →
          Ksql.SelectAccountByID account err = (account, false, none)) ∧
        (errorsIs err Ksql.ErrRecordNotFound = false → err ≠ none →
          Ksql.SelectAccountByID account err = (account, false, err)) ∧
        (err = none → Ksql.SelectAccountByID account err = (account, true, none)) ∧
        ((Ksql.SelectAccountByID account err).2.1 = true →
          (Ksql.SelectAccountByID account err).2.2 = none)) ∧
      ((errorsIs err Scan.ErrNoRows = true →
          Scan.SelectAccountByID none account err = (account, false, none)) ∧
        (errorsIs err Scan.ErrNoRows = false → err ≠ none →
          Scan.SelectAccountByID none account err = (account, false, err)) ∧
        (err = none → Scan.SelectAccountByID none account err = (account, true, none)) ∧
        (∀ queryErr : GoError,
          Scan.SelectAccountByID (some queryErr) account err = (default, false, some queryErr)) ∧
        (∀ queryErr : Option GoError,
          (Scan.SelectAccountByID queryErr account err).2.1 = true →
            (Scan.SelectAccountByID queryErr account err).2.2 = none)) := by
  refine ⟨⟨?_, ?_, ?_, ?_⟩, ⟨?_, ?_, ?_, ?_⟩, ⟨?_, ?_, ?_, ?_, ?_⟩⟩
  · intro h; simp [Pgx.SelectAccountByID, h]
  · intro h hne; cases err <;> simp_all [Pgx.SelectAccountByID]
  · intro h; subst h; simp [Pgx.SelectAccountByID, errorsIs]
  · simp only [Pgx.SelectAccountByID]; split_ifs <;> simp
  · intro h; simp [Ksql.SelectAccountByID, h]
  · intro h hne; cases err <;> simp_all [Ksql.SelectAccountByID]
  · intro h; subst h; simp [Ksql.SelectAccountByID, errorsIs]
  · simp only [Ksql.SelectAccountByID]; split_ifs <;> simp
  · intro h; simp [Scan.SelectAccountByID, h]
  · intro h hne; cases err <;> simp_all [Scan.SelectAccountByID]
  · intro h; subst h; simp [Scan.SelectAccountByID, errorsIs]
  · intro q; simp [Scan.SelectAccountByID]
  · intro q
    simp only [Scan.SelectAccountByID]; split_ifs <;> simp

theorem SelectAccountByID_signals_no_rows_witness :
    errorsIs (some (GoError.wrapped "scanning row" Pgx.ErrNoRows)) Pgx.ErrNoRows = true ∧
    Pgx.SelectAccountByID (7 : Nat) (some (GoError.wrapped "scanning row" Pgx.ErrNoRows)) =
      (7, false, none) :=
  ⟨by decide,
    (SelectAccountByID_signals_no_rows (7 : Nat)
      (some (GoError.wrapped "scanning row" Pgx.ErrNoRows))).1.1 (by decide)⟩


theorem Slice.len_beq_zero_of_cons {α : Type} (x : α) (xs : List α) :
    ((Slice.of (x :: xs)).len == 0) = false := by
  have h := Slice.len_of_cons_pos x xs
  simp only [beq_eq_false_iff_ne, ne_eq]
  omega

theorem Array.Value_of_cons {T : Type} [GoType T] (m : TypeMap T) (x : T) (xs : List T) :
    Array.Value m (Slice.of (x :: xs)) =
      match m.TypeForValueArray (Slice.of (x :: xs)), m.TypeForValueElement x with
      | some arrayType, some elementType =>
        match m.PlanEncode elementType arrayType.OID TextFormatCode (Slice.of (x :: xs)) with
        | none => Except.error GoPanic.nilPointerDereference
        | some plan =>
          match plan (Slice.of (x :: xs)) with
          | Except.error err =>
            Except.ok { value := DriverValue.null, err := some err,
                        calls := [RegistryCall.typeForValue, RegistryCall.typeForValue,
                          RegistryCall.planEncode, RegistryCall.encode] }
          | Except.ok buf =>
            Except.ok { value := DriverValue.text buf, err := none,
                        calls := [RegistryCall.typeForValue, RegistryCall.typeForValue,
                          RegistryCall.planEncode, RegistryCall.encode] }
      | _, _ =>
        Except.ok { value := DriverValue.null,
                    err := some (GoError.message
                      ("can't encode pgtype.FlatArray[" ++ GoType.typeName T ++ "]")),
                    calls := [RegistryCall.typeForValue, RegistryCall.typeForValue] } := by
  simp only [Array.Value, Slice.len_beq_zero_of_cons, Slice.index, Slice.toList, List.get?,
    Bool.false_eq_true, if_false]
  rfl

/-- C13: `Array.Value` of an Array of length 0 does not fail and returns the
database NULL: a nil value and a nil error, without a call into the registry. -/
theorem Array.Value_empty {T : Type} [GoType T] (m : TypeMap T) (a : Slice T)
    (h : a.len = 0) :
    Array.Value m a = Except.ok { value := DriverValue.null, err := none, calls := [] } := by
  rcases a with _ | (_ | ⟨x, xs⟩)
  · rfl
  · rfl
  · exact absurd h (ne_of_gt (Slice.len_of_cons_pos x xs))

theorem Array.Value_empty_witness :
    (Slice.of ([] : List Int)).len = 0 ∧
    Array.Value intTypeMap (Slice.of []) =
      Except.ok { value := DriverValue.null, err := none, calls := [] } :=
  ⟨rfl, Array.Value_empty intTypeMap (Slice.of []) rfl⟩

/-- C14, as worded, fails: the empty Array and the nil Array of `int` are
different values, and `Array.Value` returns the same result for both. -/
theorem Array.Value_empty_equals_nil_int :
    (Slice.of [] : Slice Int) ≠ Slice.nil ∧
      Array.Value intTypeMap (Slice.of []) = Array.Value intTypeMap Slice.nil :=
  ⟨by decide, rfl⟩

/-- C14, amended: an empty Array and a nil Array are different values, but
`Array.Value` does not keep them apart: for both it returns the database NULL
with a nil error. -/
theorem Array.Value_collapses_empty_and_nil {T : Type} [GoType T] (m : TypeMap T) :
    (Slice.of [] : Slice T) ≠ Slice.nil ∧
      Array.Value m (Slice.of []) = Array.Value m Slice.nil ∧
      Array.Value m Slice.nil =
        Except.ok { value := DriverValue.null, err := none, calls := [] } :=
  ⟨fun h => Slice.noConfusion h, rfl, rfl⟩

/-- C15: for a non-empty Array of a supported type, `Array.Value` succeeds
with a text value, and `Array.Scan` of that value succeeds and leaves the
receiver, whatever it held, equal to the Array. -/
theorem Array.round_trip {T : Type} [GoType T] (m : TypeMap T) (a receiver : Slice T)
    (h0 : a.len > 0) (hs : m.Supports a) :
    ∃ wire calls, Array.Value m a = Except.ok { value := wire, err := none, calls := calls } ∧
      Array.Scan m receiver wire = (a, none) := by
  obtain ⟨first, arrayType, elementType, plan, buf, hidx, hA, hE, hP, hbuf, hscan⟩ := hs
  rcases a with _ | (_ | ⟨x, xs⟩)
  · exact absurd h0 (lt_irrefl 0)
  · exact absurd h0 (lt_irrefl 0)
  · have hx : first = x := by
      simp only [Slice.index, Slice.toList, List.get?] at hidx
      injection hidx with hidx
      exact hidx.symm
    subst hx
    refine ⟨DriverValue.text buf, [RegistryCall.typeForValue, RegistryCall.typeForValue,
      RegistryCall.planEncode, RegistryCall.encode], ?_, ?_⟩
    · rw [Array.Value_of_cons, hA, hE]
      simp only [hP, hbuf]
    · simp only [Array.Scan, hscan]

theorem Array.round_trip_witness :
    (Slice.of ([1, -2, 30] : List Int)).len > 0 ∧
    ∃ wire calls, Array.Value intTypeMap (Slice.of [1, -2, 30]) =
        Except.ok { value := wire, err := none, calls := calls } ∧
      Array.Scan intTypeMap (Slice.of [7]) wire = (Slice.of [1, -2, 30], none) :=
  ⟨by decide, Array.round_trip intTypeMap (Slice.of [1, -2, 30]) (Slice.of [7]) (by decide)
    ⟨1, _, _, _, _, rfl, rfl, rfl, rfl, rfl, by decide⟩⟩

/-- C16: when the registry scanner decodes NULL into an empty sequence,
`Array.Scan` of what `Array.Value` returns for an Array of length 0, which is
the NULL, succeeds and leaves a receiver of length 0. -/
theorem Array.Scan_of_empty_value {T : Type} [GoType T] (m : TypeMap T)
    (empty receiver : Slice T) (hnull : m.DecodesNull) (he : empty.len = 0) :
    ∃ wire, Array.Value m empty = Except.ok { value := wire, err := none, calls := [] } ∧
      wire = DriverValue.null ∧
      (Array.Scan m receiver wire).2 = none ∧ (Array.Scan m receiver wire).1.len = 0 := by
  obtain ⟨h1, h2⟩ := hnull
  have hv : Array.Value m empty =
      Except.ok { value := DriverValue.null, err := none, calls := [] } := by
    rcases empty with _ | (_ | ⟨x, xs⟩)
    · rfl
    · rfl
    · exact absurd he (ne_of_gt (Slice.len_of_cons_pos x xs))
  refine ⟨DriverValue.null, hv, rfl, ?_, ?_⟩
  · cases hsc : m.SQLScannerScan DriverValue.null with
    | mk dst err =>
      rw [hsc] at h1
      simp only at h1
      subst h1
      simp only [Array.Scan, hsc]
  · cases hsc : m.SQLScannerScan DriverValue.null with
    | mk dst err =>
      rw [hsc] at h1 h2
      simp only at h1 h2
      subst h1
      simp only [Array.Scan, hsc]
      exact h2

theorem Array.Scan_of_empty_value_witness :
    intTypeMap.DecodesNull ∧ (Slice.of ([] : List Int)).len = 0 ∧
    ∃ wire, Array.Value intTypeMap (Slice.of []) =
        Except.ok { value := wire, err := none, calls := [] } ∧
      wire = DriverValue.null ∧
      (Array.Scan intTypeMap (Slice.of [7]) wire).2 = none ∧
      (Array.Scan intTypeMap (Slice.of [7]) wire).1.len = 0 :=
  ⟨⟨rfl, rfl⟩, rfl,
    Array.Scan_of_empty_value intTypeMap (Slice.of []) (Slice.of [7]) ⟨rfl, rfl⟩ rfl⟩

/-- C17: for a non-empty Array whose array type, or the type of whose first
element, the registry does not know, `Array.Value` returns a nil value with
the error `can't encode`, after the two type lookups and without planning or
performing an encoding. -/
theorem Array.Value_unregistered {T : Type} [GoType T] (m : TypeMap T) (x : T) (xs : List T)
    (h : m.TypeForValueArray (Slice.of (x :: xs)) = none ∨ m.TypeForValueElement x = none) :
    ∃ r, Array.Value m (Slice.of (x :: xs)) = Except.ok r ∧
      r.value = DriverValue.null ∧
      r.err = some (GoError.message
        ("can't encode pgtype.FlatArray[" ++ GoType.typeName T ++ "]")) ∧
      r.err ≠ none ∧
      RegistryCall.planEncode ∉ r.calls ∧ RegistryCall.encode ∉ r.calls := by
  refine ⟨{ value := DriverValue.null,
            err := some (GoError.message
              ("can't encode pgtype.FlatArray[" ++ GoType.typeName T ++ "]")),
            calls := [RegistryCall.typeForValue, RegistryCall.typeForValue] },
    ?_, rfl, rfl, by simp, ?_, ?_⟩
  · rw [Array.Value_of_cons]
    rcases h with h | h
    · rw [h]
    · rw [h]
      cases m.TypeForValueArray (Slice.of (x :: xs)) <;> rfl
  · show RegistryCall.planEncode ∉ [RegistryCall.typeForValue, RegistryCall.typeForValue]
    decide
  · show RegistryCall.encode ∉ [RegistryCall.typeForValue, RegistryCall.typeForValue]
    decide

theorem Array.Value_unregistered_witness :
    ((emptyTypeMap Int).TypeForValueArray (Slice.of [4]) = none ∨
      (emptyTypeMap Int).TypeForValueElement 4 = none) ∧
    ∃ r, Array.Value (emptyTypeMap Int) (Slice.of [4]) = Except.ok r ∧
      r.value = DriverValue.null ∧
      r.err = some (GoError.message
        ("can't encode pgtype.FlatArray[" ++ GoType.typeName Int ++ "]")) ∧
      r.err ≠ none ∧
      RegistryCall.planEncode ∉ r.calls ∧ RegistryCall.encode ∉ r.calls :=
  ⟨Or.inl rfl, Array.Value_unregistered (emptyTypeMap Int) 4 [] (Or.inl rfl)⟩

/-- C18: the error that `Array.Scan` returns is the error of the registry
scanner, unchanged: it fails exactly when the scanner fails, and returns a nil
error exactly when the scanner does. -/
theorem Array.Scan_error_is_scanner_error {T : Type} (m : TypeMap T) (a : Slice T)
    (src : DriverValue) :
    (Array.Scan m a src).2 = (m.SQLScannerScan src).2 ∧
      ((Array.Scan m a src).2 = none ↔ (m.SQLScannerScan src).2 = none) := by
  have h : (Array.Scan m a src).2 = (m.SQLScannerScan src).2 := by
    cases hsc : m.SQLScannerScan src with
    | mk dst err => cases err <;> simp only [Array.Scan, hsc]
  exact ⟨h, by rw [h]⟩

theorem Slice.foldl_append_of {α β : Type} (g : α → β) (xs : List α) (acc : List β) :
    xs.foldl (fun expressions v => expressions.append (g v)) (Slice.of acc) =
      Slice.of (acc ++ xs.map g) := by
  induction xs generalizing acc with
  | nil => simp
  | cons x xs ih =>
    have hstep : (Slice.of acc).append (g x) = Slice.of (acc ++ [g x]) := rfl
    rw [List.foldl_cons, hstep, ih]
    simp

theorem Jet.Strings_eq (s : Slice String) :
    Jet.Strings s = Slice.of (s.toList.map Expression.string) := by
  simpa [Jet.Strings] using Slice.foldl_append_of Expression.string s.toList []

theorem Jet.Enums_eq (s : Slice String) :
    Jet.Enums s = Slice.of (s.toList.map Expression.enumValue) := by
  simpa [Jet.Enums] using Slice.foldl_append_of Expression.enumValue s.toList []

theorem Jet.Integers_eq (s : Slice Int) :
    Jet.Integers s = Slice.of (s.toList.map Expression.int) := by
  simpa [Jet.Integers] using Slice.foldl_append_of Expression.int s.toList []

/-- C25: `Integers`, `Strings` and `Enums`, in the jet adapter and in its
jet/pgx copy, return a non-nil slice holding, for each element of the input
and in the same order, the literal expression that wraps it; so the result
has the length of the input and is empty for a nil or empty input. -/
theorem Jet.conversions_elementwise (ints : Slice Int) (strs : Slice String) :
    (Jet.Integers ints = Slice.of (ints.toList.map Expression.int) ∧
        Jet.Strings strs = Slice.of (strs.toList.map Expression.string) ∧
        Jet.Enums strs = Slice.of (strs.toList.map Expression.enumValue)) ∧
      (JetPgx.Integers ints = Jet.Integers ints ∧ JetPgx.Strings strs = Jet.Strings strs ∧
        JetPgx.Enums strs = Jet.Enums strs) ∧
      ((Jet.Integers ints).len = ints.len ∧ (Jet.Strings strs).len = strs.len ∧
        (Jet.Enums strs).len = strs.len) ∧
      ((Jet.Integers ints).isNil = false ∧ (Jet.Strings strs).isNil = false ∧
        (Jet.Enums strs).isNil = false) ∧
      (∀ i : Nat, (Jet.Integers ints).toList.get? i = (ints.toList.get? i).map Expression.int) ∧
      (∀ i : Nat,
        (Jet.Strings strs).toList.get? i = (strs.toList.get? i).map Expression.string) ∧
      (∀ i : Nat,
        (Jet.Enums strs).toList.get? i = (strs.toList.get? i).map Expression.enumValue) ∧
      Jet.Integers Slice.nil = Slice.of [] ∧ Jet.Strings (Slice.of []) = Slice.of [] := by
  refine ⟨⟨Jet.Integers_eq ints, Jet.Strings_eq strs, Jet.Enums_eq strs⟩, ⟨rfl, rfl, rfl⟩,
    ⟨?_, ?_, ?_⟩, ⟨?_, ?_, ?_⟩, ?_, ?_, ?_, rfl, rfl⟩
  · simp [Jet.Integers_eq, Slice.len, Slice.toList]
  · simp [Jet.Strings_eq, Slice.len, Slice.toList]
  · simp [Jet.Enums_eq, Slice.len, Slice.toList]
  · simp [Jet.Integers_eq, Slice.isNil]
  · simp [Jet.Strings_eq, Slice.isNil]
  · simp [Jet.Enums_eq, Slice.isNil]
  · intro i; simp [Jet.Integers_eq, Slice.toList]
  · intro i; simp [Jet.Strings_eq, Slice.toList]
  · intro i; simp [Jet.Enums_eq, Slice.toList]

theorem Jet.WhereAnd_fold_some (e : BoolExpression) (ws : List BoolExpression) :
    ws.foldl
        (fun whereExpr w =>
          match whereExpr with
          | none => some w
          | some e => some (BoolExpression.and e w))
        (some e) =
      some (ws.foldl BoolExpression.and e) := by
  induction ws generalizing e with
  | nil => rfl
  | cons w ws ih => rw [List.foldl_cons, List.foldl_cons]; exact ih _

theorem Jet.WhereAnd_of_cons (w : BoolExpression) (ws : List BoolExpression) :
    Jet.WhereAnd (Slice.of (w :: ws)) = some (ws.foldl BoolExpression.and w) := by
  simp only [Jet.WhereAnd, Slice.toList, List.foldl_cons]
  exact Jet.WhereAnd_fold_some w ws

theorem BoolExpression.operands_foldl (w : BoolExpression) (ws : List BoolExpression) :
    BoolExpression.operands ws.length (ws.foldl BoolExpression.and w) = w :: ws := by
  induction ws using List.reverseRecOn with
  | nil => cases w <;> rfl
  | append_singleton ws x ih =>
    rw [List.foldl_append, List.length_append]
    simp only [List.foldl_cons, List.foldl_nil, List.length_singleton,
      BoolExpression.operands, ih, List.cons_append]

/-- C24: `WhereAnd` returns nil for the nil and for the empty slice, the
element itself for a slice of one, and for `w1, ..., wn` the conjunction nested
to the left, `((w1 AND w2) AND ...) AND wn`, whose operands are the elements,
each once and in the order of the slice; the copy in the jet/pgx adapter
returns the same on every input. -/
theorem Jet.WhereAnd_left_nested (w : BoolExpression) (ws : List BoolExpression) :
    Jet.WhereAnd Slice.nil = none ∧ Jet.WhereAnd (Slice.of []) = none ∧
      Jet.WhereAnd (Slice.of [w]) = some w ∧
      Jet.WhereAnd (Slice.of (w :: ws)) = some (ws.foldl BoolExpression.and w) ∧
      BoolExpression.operands ws.length (ws.foldl BoolExpression.and w) = w :: ws ∧
      (∀ a b c : BoolExpression,
        Jet.WhereAnd (Slice.of [a, b, c]) =
          some (BoolExpression.and (BoolExpression.and a b) c)) ∧
      (∀ wheres : Slice BoolExpression, JetPgx.WhereAnd wheres = Jet.WhereAnd wheres) :=
  ⟨rfl, rfl, rfl, Jet.WhereAnd_of_cons w ws, BoolExpression.operands_foldl w ws,
    fun _ _ _ => rfl, fun _ => rfl⟩

theorem Jet.filterWheres_eq (f : Filters) :
    Jet.filterWheres f =
      Except.ok (Slice.appendAll Slice.nil ((populatedFields f).filterMap (Field.jetExpression f))) := by
  rcases f with ⟨names, active, favs⟩
  rcases names with _ | (_ | ⟨x, xs⟩) <;> rcases active with _ | b <;>
    rcases favs with _ | (_ | ⟨y, ys⟩) <;>
    simp [Jet.filterWheres, Slice.len_of_cons_pos, deref, populatedFields, Field.all,
      Field.populated, Field.jetExpression, Slice.appendAll, Jet.Strings_eq, Jet.Enums_eq,
      Slice.toList, Slice.append] <;> rfl

/-- C30: in the jet adapter and in its jet/pgx copy the where expressions are
those of the populated fields, one each, in the order names, active,
favColors, and the condition handed to WHERE, `WhereAnd` of them, is nil
exactly when no field is populated. -/
theorem Jet.filterWheres_one_per_populated (f : Filters) :
    ∃ w, Jet.filterWheres f = Except.ok w ∧ JetPgx.filterWheres f = Except.ok w ∧
      w.toList = (populatedFields f).filterMap (Field.jetExpression f) ∧
      w.toList.length = (populatedFields f).length ∧
      Jet.whereCondition f = Except.ok (Jet.WhereAnd w) ∧
      JetPgx.whereCondition f = Except.ok (Jet.WhereAnd w) ∧
      (Jet.WhereAnd w = none ↔ populatedFields f = []) := by
  have hlen : ((populatedFields f).filterMap (Field.jetExpression f)).length =
      (populatedFields f).length := by
    rcases f with ⟨names, active, favs⟩
    rcases names with _ | (_ | ⟨x, xs⟩) <;> rcases active with _ | b <;>
      rcases favs with _ | (_ | ⟨y, ys⟩) <;> rfl
  have hw := Jet.filterWheres_eq f
  have hc : Jet.whereCondition f = Except.ok (Jet.WhereAnd
      (Slice.appendAll Slice.nil ((populatedFields f).filterMap (Field.jetExpression f)))) := by
    simp only [Jet.whereCondition, hw]
    rfl
  refine ⟨_, hw, hw, Slice.toList_appendAll_nil _, ?_, hc, hc, ?_⟩
  · rw [Slice.toList_appendAll_nil, hlen]
  · have hl := Slice.toList_appendAll_nil ((populatedFields f).filterMap (Field.jetExpression f))
    cases hp : populatedFields f with
    | nil => simp [hp, Slice.appendAll, Jet.WhereAnd, Slice.toList]
    | cons p ps =>
      rw [hp] at hlen hl
      cases hq : List.filterMap (Field.jetExpression f) (p :: ps) with
      | nil => rw [hq] at hlen; simp at hlen
      | cons q qs =>
        have hne : Jet.WhereAnd (Slice.appendAll Slice.nil (q :: qs)) ≠ none := by
          have : Slice.appendAll Slice.nil (q :: qs) = Slice.of (q :: qs) := by
            rw [hq] at hl
            cases hs : Slice.appendAll Slice.nil (q :: qs) with
            | nil => rw [hs] at hl; simp [Slice.toList] at hl
            | of elems => rw [hs] at hl; simp only [Slice.toList] at hl; rw [hl]
          rw [this, Jet.WhereAnd_of_cons]
          simp
        simp [hne]


theorem Sq.anonymous_wheres_eq (f : Filters) :
    Sq.buildWheres f = Except.ok
      (Slice.appendAll Slice.nil ((populatedFields f).map Field.sqCondition),
        Slice.appendAll Slice.nil (expectedArguments f)) := by
  rcases f with ⟨names, active, favs⟩
  rcases names with _ | (_ | ⟨x, xs⟩) <;> rcases active with _ | b <;>
    rcases favs with _ | (_ | ⟨y, ys⟩) <;>
    simp [Sq.buildWheres, Slice.len_of_cons_pos, deref, expectedArguments,
      populatedFields, Field.all, Field.populated, Field.argument, Field.sqCondition,
      Slice.appendAll] <;> first | rfl | exact ⟨rfl, rfl⟩

theorem Sq.anonymous_statement_eq (f : Filters) :
    Sq.SelectAllAccountsByFilter f = Except.ok
      (if ((populatedFields f).map Field.sqCondition).length > 0 then
          Sq.baseQuery ++
            (" WHERE " ++ String.intercalate " AND " ((populatedFields f).map Field.sqCondition))
        else Sq.baseQuery,
        Slice.appendAll Slice.nil (expectedArguments f)) := by
  simp only [Sq.SelectAllAccountsByFilter, Sq.anonymous_wheres_eq f, bind, Except.bind, pure,
    Except.pure, Slice.len, Slice.toList_appendAll_nil]
  by_cases hl : ((populatedFields f).map Field.sqCondition).length > 0
  · have hi : (((populatedFields f).map Field.sqCondition).length : Int) > 0 := by omega
    rw [if_pos hl, if_pos hi]
  · have hi : ¬ (((populatedFields f).map Field.sqCondition).length : Int) > 0 := by omega
    rw [if_neg hl, if_neg hi]

theorem Sq.anonymous_wheres_table (f : Filters) :
    ∃ w a w' q, Pgx.buildWheres f = Except.ok (w, a) ∧ Sq.buildWheres f = Except.ok (w', a) ∧
      Sq.SelectAllAccountsByFilter f = Except.ok (q, a) ∧
      (w.toList, w'.toList, q, a.toList.length) ∈
      [([], [], Sq.baseQuery, 0),
       (["fav_color = ANY($1)"], ["fav_color = ANY(\x7b\x7d)"],
         Sq.baseQuery ++ " WHERE fav_color = ANY(\x7b\x7d)", 1),
       (["active = $1"], ["active = \x7b\x7d"], Sq.baseQuery ++ " WHERE active = \x7b\x7d", 1),
       (["active = $1", "fav_color = ANY($2)"], ["active = \x7b\x7d", "fav_color = ANY(\x7b\x7d)"],
         Sq.baseQuery ++ " WHERE active = \x7b\x7d AND fav_color = ANY(\x7b\x7d)", 2),
       (["name = ANY($1)"], ["name = ANY(\x7b\x7d)"],
         Sq.baseQuery ++ " WHERE name = ANY(\x7b\x7d)", 1),
       (["name = ANY($1)", "fav_color = ANY($2)"],
         ["name = ANY(\x7b\x7d)", "fav_color = ANY(\x7b\x7d)"],
         Sq.baseQuery ++ " WHERE name = ANY(\x7b\x7d) AND fav_color = ANY(\x7b\x7d)", 2),
       (["name = ANY($1)", "active = $2"], ["name = ANY(\x7b\x7d)", "active = \x7b\x7d"],
         Sq.baseQuery ++ " WHERE name = ANY(\x7b\x7d) AND active = \x7b\x7d", 2),
       (["name = ANY($1)", "active = $2", "fav_color = ANY($3)"],
         ["name = ANY(\x7b\x7d)", "active = \x7b\x7d", "fav_color = ANY(\x7b\x7d)"],
         Sq.baseQuery ++
           " WHERE name = ANY(\x7b\x7d) AND active = \x7b\x7d AND fav_color = ANY(\x7b\x7d)",
         3)] := by
  rcases f with ⟨names, active, favs⟩
  rcases names with _ | (_ | ⟨x, xs⟩) <;> rcases active with _ | b <;>
    rcases favs with _ | (_ | ⟨y, ys⟩) <;>
    refine ⟨_, _, _, _, Pgx.buildWheres_eq _, Sq.anonymous_wheres_eq _,
      Sq.anonymous_statement_eq _, ?_⟩ <;>
    first
      | exact List.Mem.head _
      | exact List.Mem.tail _ (List.Mem.head _)
      | exact List.Mem.tail _ (List.Mem.tail _ (List.Mem.head _))
      | exact List.Mem.tail _ (List.Mem.tail _ (List.Mem.tail _ (List.Mem.head _)))
      | exact List.Mem.tail _ (List.Mem.tail _ (List.Mem.tail _ (List.Mem.tail _ (List.Mem.head _))))
      | exact List.Mem.tail _ (List.Mem.tail _ (List.Mem.tail _ (List.Mem.tail _
          (List.Mem.tail _ (List.Mem.head _)))))
      | exact List.Mem.tail _ (List.Mem.tail _ (List.Mem.tail _ (List.Mem.tail _
          (List.Mem.tail _ (List.Mem.tail _ (List.Mem.head _))))))
      | exact List.Mem.tail _ (List.Mem.tail _ (List.Mem.tail _ (List.Mem.tail _
          (List.Mem.tail _ (List.Mem.tail _ (List.Mem.tail _ (List.Mem.head _)))))))

/-- C26: for every filter value the sq adapter builds the same arguments as
the pgx adapter, its conditions are the pgx conditions with every numbered
placeholder rewritten as the anonymous one, and the query text holds as many
anonymous placeholders as there are arguments. -/
theorem Sq.buildWheres_is_pgx_anonymized (f : Filters) :
    ∃ w a w' q, Pgx.buildWheres f = Except.ok (w, a) ∧ Sq.buildWheres f = Except.ok (w', a) ∧
      Sq.SelectAllAccountsByFilter f = Except.ok (q, a) ∧
      w'.toList = w.toList.map anonymize ∧
      countAnonymous (String.intercalate " AND " w'.toList).data = a.toList.length ∧
      countAnonymous q.data = a.toList.length := by
  obtain ⟨w, a, w', q, hp, hs, hq, hmem⟩ := Sq.anonymous_wheres_table f
  refine ⟨w, a, w', q, hp, hs, hq, ?_⟩
  simp only [List.mem_cons, List.mem_singleton, Prod.mk.injEq, List.not_mem_nil, or_false] at hmem
  rcases hmem with h | h | h | h | h | h | h | h <;>
    obtain ⟨hw, hw', hq', ha⟩ := h <;> rw [hw, hw', hq', ha] <;> decide

theorem Array.Value_of_cons_outcomes {T : Type} [GoType T] (m : TypeMap T) (x : T)
    (xs : List T) :
    (Array.Value m (Slice.of (x :: xs)) = Except.error GoPanic.nilPointerDereference ∧
        ∃ elementType oid, m.PlanEncode elementType oid TextFormatCode (Slice.of (x :: xs)) = none) ∨
      (∃ err calls, Array.Value m (Slice.of (x :: xs)) =
        Except.ok { value := DriverValue.null, err := some err, calls := calls }) ∨
      (∃ buf calls, Array.Value m (Slice.of (x :: xs)) =
        Except.ok { value := DriverValue.text buf, err := none, calls := calls }) := by
  rw [Array.Value_of_cons]
  cases hA : m.TypeForValueArray (Slice.of (x :: xs)) with
  | none => exact Or.inr (Or.inl ⟨_, _, rfl⟩)
  | some arrayType =>
    cases hE : m.TypeForValueElement x with
    | none => exact Or.inr (Or.inl ⟨_, _, rfl⟩)
    | some elementType =>
      cases hP : m.PlanEncode elementType arrayType.OID TextFormatCode (Slice.of (x :: xs)) with
      | none =>
        refine Or.inl ⟨?_, elementType, arrayType.OID, hP⟩
        simp only [hP]
      | some plan =>
        cases hB : plan (Slice.of (x :: xs)) with
        | error err =>
          refine Or.inr (Or.inl ⟨err, [RegistryCall.typeForValue, RegistryCall.typeForValue,
            RegistryCall.planEncode, RegistryCall.encode], ?_⟩)
          simp only [hP, hB]
        | ok buf =>
          refine Or.inr (Or.inr ⟨buf, [RegistryCall.typeForValue, RegistryCall.typeForValue,
            RegistryCall.planEncode, RegistryCall.encode], ?_⟩)
          simp only [hP, hB]

/-- C27: `Array.Value` of a non-empty Array, whenever it returns, returns
either a nil value with a non-nil error or a text value with a nil error, and
it does return whenever the registry yields an encode plan; so the NULL
without error comes back for an Array of length 0 only. -/
theorem Array.Value_never_silently_null {T : Type} [GoType T] (m : TypeMap T) (x : T)
    (xs : List T) :
    (∀ r, Array.Value m (Slice.of (x :: xs)) = Except.ok r →
        (r.err ≠ none ∧ r.value = DriverValue.null) ∨
          (r.err = none ∧ ∃ text, r.value = DriverValue.text text)) ∧
      ((∀ elementType oid,
          m.PlanEncode elementType oid TextFormatCode (Slice.of (x :: xs)) ≠ none) →
        ∃ r, Array.Value m (Slice.of (x :: xs)) = Except.ok r) ∧
      (∀ (a : Slice T) (calls : List RegistryCall),
        Array.Value m a =
            Except.ok { value := DriverValue.null, err := none, calls := calls } →
          a.len = 0) := by
  have hcons : ∀ (y : T) (ys : List T) (r : ValueResult),
      Array.Value m (Slice.of (y :: ys)) = Except.ok r →
        (r.err ≠ none ∧ r.value = DriverValue.null) ∨
          (r.err = none ∧ ∃ text, r.value = DriverValue.text text) := by
    intro y ys r hr
    rcases Array.Value_of_cons_outcomes m y ys with ⟨h, -⟩ | ⟨err, calls, h⟩ | ⟨buf, calls, h⟩
    · rw [h] at hr; cases hr
    · rw [h] at hr; cases hr; exact Or.inl ⟨by simp, rfl⟩
    · rw [h] at hr; cases hr; exact Or.inr ⟨rfl, buf, rfl⟩
  refine ⟨hcons x xs, ?_, ?_⟩
  · intro hplan
    rcases Array.Value_of_cons_outcomes m x xs with
      ⟨-, elementType, oid, h⟩ | ⟨err, calls, h⟩ | ⟨buf, calls, h⟩
    · exact absurd h (hplan elementType oid)
    · exact ⟨_, h⟩
    · exact ⟨_, h⟩
  · intro a calls ha
    rcases a with _ | (_ | ⟨y, ys⟩)
    · rfl
    · rfl
    · rcases hcons y ys _ ha with ⟨h1, -⟩ | ⟨-, text, h2⟩
      · exact absurd rfl h1
      · cases h2

theorem Array.Value_never_silently_null_witness :
    (∀ elementType oid,
        intTypeMap.PlanEncode elementType oid TextFormatCode (Slice.of [1, -2, 30]) ≠ none) ∧
    ∃ r, Array.Value intTypeMap (Slice.of [1, -2, 30]) = Except.ok r :=
  ⟨fun _ _ h => Option.noConfusion h,
    (Array.Value_never_silently_null intTypeMap 1 [-2, 30]).2.1
      (fun _ _ h => Option.noConfusion h)⟩

/-- C28: `Array.Scan` leaves the receiver as it was when the scanner fails,
whatever the scanner wrote to its destination, and when the scanner succeeds
the receiver becomes the decoded sequence, the same whatever the receiver
held before. -/
theorem Array.Scan_receiver_atomic {T : Type} (m : TypeMap T) (a b : Slice T)
    (src : DriverValue) :
    ((m.SQLScannerScan src).2 ≠ none → (Array.Scan m a src).1 = a) ∧
      ((m.SQLScannerScan src).2 = none →
        (Array.Scan m a src).1 = (m.SQLScannerScan src).1 ∧
          (Array.Scan m a src).1 = (Array.Scan m b src).1) := by
  cases hsc : m.SQLScannerScan src with
  | mk dst err =>
    cases err with
    | none => simp [Array.Scan, hsc]
    | some e => simp [Array.Scan, hsc]

theorem Array.Scan_receiver_atomic_witness :
    (intTypeMap.SQLScannerScan (DriverValue.text "\x7b1,-2")).2 ≠ none ∧
    (Array.Scan intTypeMap (Slice.of [5]) (DriverValue.text "\x7b1,-2")).1 = Slice.of [5] ∧
    (Array.Scan intTypeMap (Slice.of [5]) (DriverValue.text "\x7b1,-2\x7d")).1 =
      Slice.of [1, -2] :=
  ⟨by decide,
    (Array.Scan_receiver_atomic intTypeMap (Slice.of [5]) Slice.nil
      (DriverValue.text "\x7b1,-2")).1 (by decide),
    by decide⟩

/-- C29: `Array.Value` never indexes out of range: for an Array of length 0,
nil or empty, it returns before reading `src[0]` and before any call into the
registry, and for any other Array the element at index 0 exists. -/
theorem Array.Value_index_in_range {T : Type} [GoType T] (m : TypeMap T) (a : Slice T) :
    Array.Value m a ≠ Except.error GoPanic.indexOutOfRange ∧
      (a.len = 0 →
        Array.Value m a = Except.ok { value := DriverValue.null, err := none, calls := [] }) ∧
      (a.len > 0 → ∃ first, a.index 0 = Except.ok first) ∧
      Array.Value m Slice.nil ≠ Except.error GoPanic.indexOutOfRange ∧
      Array.Value m (Slice.of []) ≠ Except.error GoPanic.indexOutOfRange := by
  have h1 : ∀ a : Slice T, Array.Value m a ≠ Except.error GoPanic.indexOutOfRange := by
    intro a h
    rcases a with _ | (_ | ⟨y, ys⟩)
    · cases h
    · cases h
    · rcases Array.Value_of_cons_outcomes m y ys with ⟨h', -⟩ | ⟨err, calls, h'⟩ | ⟨buf, calls, h'⟩ <;>
        · rw [h'] at h; cases h
  refine ⟨h1 a, ?_, ?_, h1 _, h1 _⟩
  · intro h0
    rcases a with _ | (_ | ⟨y, ys⟩)
    · rfl
    · rfl
    · exact absurd h0 (ne_of_gt (Slice.len_of_cons_pos y ys))
  · intro h0
    rcases a with _ | (_ | ⟨y, ys⟩)
    · exact absurd h0 (lt_irrefl 0)
    · exact absurd h0 (lt_irrefl 0)
    · exact ⟨y, rfl⟩


/-- C21: the fetch-all query of the pgx, scan, sqlx and ksql adapters ends in
`ORDER BY id`, and the squirrel and jet adapters call order-by with `id`, but
the goqu, goqu/pgx and sqlbuilder adapters build the same columns of the same
table with no ordering at all. -/
theorem SelectAllAccounts_ordering_differs :
    (mentions "ORDER BY id" Pgx.SelectAllAccounts = true ∧
        Scan.SelectAllAccounts = Pgx.SelectAllAccounts ∧
        Sqlx.SelectAllAccounts = Pgx.SelectAllAccounts ∧
        Ksql.SelectAllAccounts = Pgx.SelectAllAccounts) ∧
      (Squirrel.SelectAllAccounts.orderBy = ["id"] ∧ Jet.SelectAllAccounts.orderBy = ["id"]) ∧
      (Goqu.SelectAllAccounts.orderBy = [] ∧ GoquPgx.SelectAllAccounts.orderBy = [] ∧
        Sqlbuilder.SelectAllAccounts.orderBy = []) ∧
      (Goqu.SelectAllAccounts.columns = Squirrel.SelectAllAccounts.columns ∧
        Goqu.SelectAllAccounts.table = Squirrel.SelectAllAccounts.table ∧
        Goqu.SelectAllAccounts ≠ Squirrel.SelectAllAccounts) :=
  ⟨⟨by decide, rfl, rfl, rfl⟩, ⟨rfl, rfl⟩, ⟨rfl, rfl, rfl⟩, ⟨rfl, rfl, by decide⟩⟩

theorem Squirrel.built_query_eq (f : Filters) :
    Squirrel.SelectAllAccountsByFilter f = Except.ok
      { columns := ["id", "name", "email", "active", "fav_color", "fav_numbers", "properties",
          "created_at"]
        table := "accounts"
        wheres := (populatedFields f).filterMap
          (fun fld => (Field.argument f fld).map (fun v => (fld.column, v)))
        orderBy := ["id"] } := by
  rcases f with ⟨names, active, favs⟩
  rcases names with _ | (_ | ⟨x, xs⟩) <;> rcases active with _ | b <;>
    rcases favs with _ | (_ | ⟨y, ys⟩) <;>
    simp [Squirrel.SelectAllAccountsByFilter, Slice.len_of_cons_pos, deref, populatedFields,
      Field.all, Field.populated, Field.argument, Field.column] <;> rfl

theorem Squirrel.SelectAllAccountsByFilter_orderBy (f : Filters) :
    ∃ sel, Squirrel.SelectAllAccountsByFilter f = Except.ok sel ∧ sel.orderBy = ["id"] ∧
      sel.wheres.length = (populatedFields f).length := by
  refine ⟨_, Squirrel.built_query_eq f, rfl, ?_⟩
  rcases f with ⟨names, active, favs⟩
  rcases names with _ | (_ | ⟨x, xs⟩) <;> rcases active with _ | b <;>
    rcases favs with _ | (_ | ⟨y, ys⟩) <;> rfl

/-- C22: for every filter value the filtered query of the squirrel adapter
is built with `OrderBy("id")`, while the statement text of the pgx adapter
for the same filters holds no ORDER BY. -/
theorem Squirrel.filter_orders_by_id (f : Filters) :
    ∃ q a sel, Pgx.SelectAllAccountsByFilter f = Except.ok (q, a) ∧
      mentions "ORDER BY" q = false ∧
      Squirrel.SelectAllAccountsByFilter f = Except.ok sel ∧ sel.orderBy = ["id"] ∧
      sel.wheres.length = a.toList.length := by
  obtain ⟨sel, hsel, hord, hlen⟩ := Squirrel.SelectAllAccountsByFilter_orderBy f
  obtain ⟨w, a, hok, hmem⟩ := Pgx.buildWheres_table f
  have hw : w.toList = expectedConditions f := by
    have h2 := Pgx.buildWheres_eq f
    rw [hok] at h2
    injection h2 with h3
    injection h3 with h4 _
    rw [h4]
    exact Slice.toList_appendAll_nil _
  have ha : a.toList = expectedArguments f := by
    have h2 := Pgx.buildWheres_eq f
    rw [hok] at h2
    injection h2 with h3
    injection h3 with _ h4
    rw [h4]
    exact Slice.toList_appendAll_nil _
  have hq := Pgx.SelectAllAccountsByFilter_eq f
  rw [← hw] at hq
  refine ⟨_, _, sel, hq, ?_, hsel, hord, ?_⟩
  · simp only [List.mem_cons, List.mem_singleton, Prod.mk.injEq, List.not_mem_nil,
      or_false] at hmem
    rcases hmem with h | h | h | h | h | h | h | h <;>
      obtain ⟨-, -, -, hw', -⟩ := h <;> rw [hw'] <;> decide
  · rw [Slice.toList_appendAll_nil, hlen]
    simp only [List.mem_cons, List.mem_singleton, Prod.mk.injEq, List.not_mem_nil,
      or_false] at hmem
    rcases hmem with h | h | h | h | h | h | h | h <;>
      obtain ⟨hn, hb, hc, -, ha'⟩ := h <;>
      rw [← ha, ha'] <;>
      simp [populatedFields, Field.all, List.filter, hn, hb, hc]

theorem goString_nil_text : goString "<nil>" = [60, 110, 105, 108, 62] := by decide

theorem goString_bracket (text : String) : goString ("[" ++ text) = 91 :: goString text := by
  have h : ("[" ++ text).data = '[' :: text.data := by
    rw [String.data_append]; rfl
  have h2 : String.utf8EncodeChar '[' = [91] := by decide
  unfold goString
  rw [h]
  simp [List.flatMap, h2]

theorem SliceToStr_of_other_kind {T : Type} (format : ElementFormat T) (v : Slice T)
    (h : format.asByte = none) : SliceToStr format v = goString "<nil>" ↔ v = Slice.nil := by
  cases v with
  | nil => simp [SliceToStr]
  | of elems =>
    simp only [SliceToStr, h]
    constructor
    · intro heq
      rw [String.append_assoc, goString_bracket, goString_nil_text] at heq
      exact absurd (List.head_eq_of_cons_eq heq) (by decide)
    · intro heq
      cases heq

/-- C23: `SliceToStr` of the five bytes that spell `<nil>`, a slice that is
not nil, is `<nil>`, the very text it returns for the nil slice; for an
element type that is not a byte the text is `<nil>` for the nil slice only. -/
theorem SliceToStr_bytes_spelling_nil :
    SliceToStr byteFormat (Slice.of [60, 110, 105, 108, 62]) = goString "<nil>" ∧
      (Slice.of [60, 110, 105, 108, 62] : Slice UInt8).isNil = false ∧
      SliceToStr byteFormat Slice.nil = goString "<nil>" ∧
      (∀ v : Slice Int, SliceToStr intFormat v = goString "<nil>" ↔ v = Slice.nil) :=
  ⟨by decide, rfl, rfl, fun v => SliceToStr_of_other_kind intFormat v rfl⟩

theorem Sqlbuilder.built_filter_eq (f : Filters) :
    Sqlbuilder.SelectAllAccountsByFilter f = Except.ok
      { columns := ["id", "name", "email", "active", "fav_color", "fav_numbers", "properties",
          "created_at"]
        table := "accounts"
        wheres := (populatedFields f).filterMap
          (fun fld => (Field.argument f fld).map (fun v => (fld.column, v)))
        orderBy := [] } := by
  rcases f with ⟨names, active, favs⟩
  rcases names with _ | (_ | ⟨x, xs⟩) <;> rcases active with _ | b <;>
    rcases favs with _ | (_ | ⟨y, ys⟩) <;>
    simp [Sqlbuilder.SelectAllAccountsByFilter, Slice.len_of_cons_pos, deref, populatedFields,
      Field.all, Field.populated, Field.argument, Field.column] <;> rfl

theorem Field.active_mem_populated (f : Filters) (b : Bool) (h : f.Active = some b) :
    Field.active ∈ populatedFields f := by
  simp [populatedFields, Field.all, Field.populated, h]

theorem Field.argument_bool_mem (f : Filters) (b : Bool) (h : f.Active = some b) :
    GoAny.bool b ∈ expectedArguments f ∧ ∀ p, GoAny.boolPtr p ∉ expectedArguments f := by
  constructor
  · exact List.mem_filterMap.mpr
      ⟨Field.active, Field.active_mem_populated f b h, by simp [Field.argument, h]⟩
  · intro p hm
    obtain ⟨fld, -, hfld⟩ := List.mem_filterMap.mp hm
    cases fld <;> simp [Field.argument, h] at hfld

theorem Field.column_argument_bool_mem {β : Type} (f : Filters) (b : Bool)
    (h : f.Active = some b) (wrap : GoAny → β) (hwrap : Function.Injective wrap) :
    ("active", wrap (GoAny.bool b)) ∈
        (populatedFields f).filterMap
          (fun fld => (Field.argument f fld).map (fun v => (fld.column, wrap v))) ∧
      ∀ c p, (c, wrap (GoAny.boolPtr p)) ∉
        (populatedFields f).filterMap
          (fun fld => (Field.argument f fld).map (fun v => (fld.column, wrap v))) := by
  constructor
  · exact List.mem_filterMap.mpr
      ⟨Field.active, Field.active_mem_populated f b h, by simp [Field.argument, h, Field.column]⟩
  · intro c p hm
    obtain ⟨fld, -, hfld⟩ := List.mem_filterMap.mp hm
    cases fld <;> simp [Field.argument, h] at hfld <;>
      · have := hwrap hfld.2
        cases this

/-- C11: whenever Active is present, pointing to `b`, every adapter binds the
boolean `b` to the active predicate and nowhere a pointer: the pgx, scan,
sqlx, ksql and sq adapters in their arguments, the squirrel, sqlbuilder and
jet adapters in their conditions, and the goqu adapter as well as the goqu/pgx
adapter in the values that the rendered statement carries, which are the same
for the two. -/
theorem active_binds_dereferenced_boolean (f : Filters) (b : Bool) (h : f.Active = some b) :
    (∃ w a, Pgx.buildWheres f = Except.ok (w, a) ∧ GoAny.bool b ∈ a.toList ∧
        (∀ p, GoAny.boolPtr p ∉ a.toList) ∧
        Scan.buildWheres f = Except.ok (w, a) ∧ Sqlx.buildWheres f = Except.ok (w, a) ∧
        Ksql.buildWheres f = Except.ok (w, a) ∧ ∃ w', Sq.buildWheres f = Except.ok (w', a)) ∧
      (∃ exs, Goqu.filterWheres f = Except.ok exs ∧
        ("active", some (GoAny.bool b)) ∈ exs.map GoquEx.bound ∧
        ∀ c p, (c, some (GoAny.boolPtr p)) ∉ exs.map GoquEx.bound) ∧
      (∃ exs exs', GoquPgx.filterWheres f = Except.ok exs ∧
        Goqu.filterWheres f = Except.ok exs' ∧
        exs.map GoquEx.bound = exs'.map GoquEx.bound ∧
        ("active", some (GoAny.bool b)) ∈ exs.map GoquEx.bound ∧
        ∀ c p, (c, some (GoAny.boolPtr p)) ∉ exs.map GoquEx.bound) ∧
      (∃ sel, Squirrel.SelectAllAccountsByFilter f = Except.ok sel ∧
        ("active", GoAny.bool b) ∈ sel.wheres ∧ ∀ c p, (c, GoAny.boolPtr p) ∉ sel.wheres) ∧
      (∃ sel, Sqlbuilder.SelectAllAccountsByFilter f = Except.ok sel ∧
        ("active", GoAny.bool b) ∈ sel.wheres ∧ ∀ c p, (c, GoAny.boolPtr p) ∉ sel.wheres) ∧
      (∃ w, Jet.filterWheres f = Except.ok w ∧ JetPgx.filterWheres f = Except.ok w ∧
        BoolExpression.eq "active" (Expression.bool b) ∈ w.toList) := by
  have harg := Field.argument_bool_mem f b h
  have hsome := Field.column_argument_bool_mem f b h (fun v => some v)
    (fun _ _ hxy => Option.some.inj hxy)
  have hid := Field.column_argument_bool_mem f b h (fun v => v) (fun _ _ hxy => hxy)
  obtain ⟨exs, hexs, hb⟩ := Goqu.goqu_wheres_bound_eq f
  obtain ⟨exs', hexs', hb'⟩ := GoquPgx.pointer_wheres_bound_eq f
  refine ⟨⟨_, _, Pgx.buildWheres_eq f, ?_, ?_, Pgx.buildWheres_eq f, Pgx.buildWheres_eq f,
      Pgx.buildWheres_eq f, _, Sq.anonymous_wheres_eq f⟩,
    ⟨exs, hexs, ?_, ?_⟩, ⟨exs', exs, hexs', hexs, by rw [hb, hb'], ?_, ?_⟩,
    ⟨_, Squirrel.built_query_eq f, hid.1, hid.2⟩,
    ⟨_, Sqlbuilder.built_filter_eq f, hid.1, hid.2⟩,
    ⟨_, Jet.filterWheres_eq f, Jet.filterWheres_eq f, ?_⟩⟩
  · rw [Slice.toList_appendAll_nil]; exact harg.1
  · rw [Slice.toList_appendAll_nil]; exact harg.2
  · rw [hb]; exact hsome.1
  · rw [hb]; exact hsome.2
  · rw [hb']; exact hsome.1
  · rw [hb']; exact hsome.2
  · rw [Slice.toList_appendAll_nil]
    exact List.mem_filterMap.mpr
      ⟨Field.active, Field.active_mem_populated f b h, by simp [Field.jetExpression, h]⟩

theorem active_binds_dereferenced_boolean_witness :
    mainFilters.Active = some true ∧
    ∃ exs exs', GoquPgx.filterWheres mainFilters = Except.ok exs ∧
      Goqu.filterWheres mainFilters = Except.ok exs' ∧
      exs.map GoquEx.bound = exs'.map GoquEx.bound ∧
      ("active", some (GoAny.bool true)) ∈ exs.map GoquEx.bound ∧
      ∀ c p, (c, some (GoAny.boolPtr p)) ∉ exs.map GoquEx.bound :=
  ⟨rfl, (active_binds_dereferenced_boolean mainFilters true rfl).2.2.1⟩


end AwesomeGoSql
